import Mathlib

/-!
# The Rust backend of `iopc` (`src/iopc/iopc-lang-rust.c`)

A shallow embedding of the code generator and the properties of the text it
emits.

Conventions of the embedding.

* A string buffer `sb_t` is a `String`; `sb_adds`, `sb_addc` and `sb_addf`
  append to it, so every dump function takes the buffer and returns the
  buffer it leaves.  `%d`, `%jd` and `%ju` are rendered by `toString` on
  `Int` / `Nat`, `%s`, `%pL` and `%*pM` by the string itself.
* Vectors (`qv_t`) are lists, a `NULL`-able pointer is an `Option`.
* Objects compared by address (`pkg != member_pkg`) carry that address as a
  number.
* `int` values (tags, enum values) are `Int`; the IOP tags are small, no
  arithmetic of this file leaves the range of `int` on them.
* Functions declared outside this file and whose code is not part of it are
  either parameters (`t_camelcase_to_c`, `iopc_is_class`, the result of
  `iopc_get_depends`) or modelled from the specification, which is said in
  their description.
-/

set_option linter.unusedVariables false
set_option maxRecDepth 100000

namespace IopcRust

/-! ## Data model (`iopc.h`) -/

/-- String buffer `sb_t`: its contents. -/
abbrev sb_t := String

/-- Dotted name of a package: `path->bits`. -/
structure iopc_path_t where
  bits : List String
deriving DecidableEq, Repr, Inhabited

/-- Kinds of a field, the cases of the `switch (field->kind)` of the file. -/
inductive iop_type_t where
  | IOP_T_I8 | IOP_T_U8 | IOP_T_I16 | IOP_T_U16 | IOP_T_I32 | IOP_T_U32
  | IOP_T_I64 | IOP_T_U64 | IOP_T_BOOL | IOP_T_ENUM | IOP_T_DOUBLE
  | IOP_T_STRING | IOP_T_DATA | IOP_T_UNION | IOP_T_STRUCT | IOP_T_XML
  | IOP_T_VOID
deriving DecidableEq, Repr, Inhabited

/-- Cardinality of a field (`field->repeat`). -/
inductive iop_repeat_t where
  | IOP_R_REQUIRED | IOP_R_DEFVAL | IOP_R_OPTIONAL | IOP_R_REPEATED
deriving DecidableEq, Repr, Inhabited

/-- Kind of an `iopc_struct_t`.  `STRUCT_TYPE_OTHER` stands for every value
the `switch` of `iopc_dump_structs` sends to `default:`. -/
inductive iopc_struct_type_t where
  | STRUCT_TYPE_STRUCT | STRUCT_TYPE_CLASS | STRUCT_TYPE_UNION
  | STRUCT_TYPE_OTHER
deriving DecidableEq, Repr, Inhabited

/-- Kind of an `iopc_iface_t`; `IFACE_TYPE_OTHER` is the `default:` case. -/
inductive iopc_iface_type_t where
  | IFACE_TYPE_IFACE | IFACE_TYPE_OTHER
deriving DecidableEq, Repr, Inhabited

/-- The default value of a field, `field->defval`.  `u64` is the 64-bit
word, `d` the text `DOUBLE_FMT` prints for the double, `ptr` the string. -/
structure iopc_defval_t where
  u64 : Nat
  d : String
  ptr : String
deriving DecidableEq, Repr, Inhabited

/-- A field.  `struct_def_type` is `field->struct_def->type`, the one member
of the referenced definition the file reads; `type_pkg` is the address of the
package of the referenced type. -/
structure iopc_field_t where
  name : String
  tag : Int
  kind : iop_type_t
  repeat_ : iop_repeat_t
  is_ref : Bool
  struct_def_type : iopc_struct_type_t
  type_pkg : Nat
  type_path : iopc_path_t
  type_name : String
  defval : iopc_defval_t
deriving DecidableEq, Repr, Inhabited

/-- An entry of `st->extends`; `st_name` is `extends.tab[i]->st->name`. -/
structure iopc_extends_t where
  st_name : String
deriving DecidableEq, Repr, Inhabited

/-- A struct, class, union or module. -/
structure iopc_struct_t where
  name : String
  type : iopc_struct_type_t
  fields : List iopc_field_t
  extends_ : List iopc_extends_t
deriving DecidableEq, Repr, Inhabited

/-- One `name = value` pair of an enum. -/
structure iopc_enum_field_t where
  name : String
  value : Int
deriving DecidableEq, Repr, Inhabited

/-- An enum. -/
structure iopc_enum_t where
  name : String
  values : List iopc_enum_field_t
deriving DecidableEq, Repr, Inhabited

/-- An RPC.  `arg`, `res`, `exn` are `NULL` when the payload is absent;
`farg`, `fres`, `fexn` are read only when the payload is present and not
anonymous. -/
structure iopc_fun_t where
  name : String
  tag : Int
  fun_is_async : Bool
  arg : Option iopc_struct_t
  arg_is_anonymous : Bool
  farg : iopc_field_t
  res : Option iopc_struct_t
  res_is_anonymous : Bool
  fres : iopc_field_t
  exn : Option iopc_struct_t
  exn_is_anonymous : Bool
  fexn : iopc_field_t
deriving DecidableEq, Repr, Inhabited

/-- An interface. -/
structure iopc_iface_t where
  name : String
  type : iopc_iface_type_t
  funs : List iopc_fun_t
deriving DecidableEq, Repr, Inhabited

/-- A package.  `addr` is the address of the object, what `pkg != member_pkg`
compares. -/
structure iopc_pkg_t where
  addr : Nat
  name : iopc_path_t
  enums : List iopc_enum_t
  structs : List iopc_struct_t
  ifaces : List iopc_iface_t
  modules : List iopc_struct_t
deriving DecidableEq, Repr, Inhabited

/-! ## Helpers -/

/-- The table `reserved_names_g`. -/
def reserved_names_g : List String := ["type", "module"]

/-- The banner `RO_WARN`. -/
def RO_WARN : String :=
  "/***** THIS FILE IS AUTOGENERATED DO NOT MODIFY DIRECTLY ! *****/\n"

/-- `sb_shrink(sb, len)`: drops the last `len` bytes of the buffer.  (The C
function requires `len <= sb->len`; the two callers drop the separator they
wrote last, which is there as soon as the path has a segment.) -/
def sb_shrink (buf : sb_t) (len : Nat) : sb_t :=
  ⟨buf.data.take (buf.data.length - len)⟩

/-- `pp_under`: the segments joined by two underscores.  (On a path without
segment the C code shrinks an empty buffer, which `sb_shrink` does not allow;
the parser gives every package a name, and the model leaves the empty
string.) -/
def pp_under (path : iopc_path_t) : String :=
  sb_shrink (path.bits.foldl (fun buf bit => buf ++ bit ++ "__") "") 2

/-- `pp_path`: the segments joined by a slash. -/
def pp_path (path : iopc_path_t) : String :=
  sb_shrink (path.bits.foldl (fun buf bit => buf ++ bit ++ "/") "") 1

/-- `is_name_reserved`. -/
def is_name_reserved (field_name : String) : Bool :=
  reserved_names_g.any (fun name => field_name == name)

/-- `t_field_name_to_camelcase`: the first character in upper case. -/
def t_field_name_to_camelcase (s : String) : String :=
  match s.data with
  | [] => s
  | c :: cs => ⟨c.toUpper :: cs⟩

/-! ## Imports -/

/-- The `qh_t(cstr)` set of `iopc_dump_imports`: the strings it holds. -/
abbrev qh_cstr := List String

/-- `iopc_dump_import`.  `qh_put` reports a collision when the alias is
already in the set and adds it otherwise. -/
def iopc_dump_import (buf : sb_t) (dep : iopc_pkg_t) (imported : qh_cstr) :
    sb_t × qh_cstr :=
  if pp_under dep.name ∈ imported then
    (buf, imported)
  else
    (buf ++ "import * as " ++ pp_under dep.name ++ " from \"iop/"
       ++ pp_path dep.name ++ ".iop\";\n", pp_under dep.name :: imported)

/-- One `tab_for_each_entry(dep, ...)` loop of `iopc_dump_imports`. -/
def iopc_dump_import_loop (deps : List iopc_pkg_t) (s : sb_t × qh_cstr) :
    sb_t × qh_cstr :=
  deps.foldl (fun s dep => iopc_dump_import s.1 dep s.2) s

/-- `iopc_dump_imports`.  The three lists are what `iopc_get_depends` fills:
the direct, the weak and the indirect dependencies. -/
def iopc_dump_imports (buf : sb_t)
    (t_deps t_weak_deps i_deps : List iopc_pkg_t) : sb_t :=
  let imported : qh_cstr := []
  let s := iopc_dump_import_loop t_deps (buf, imported)
  let s := iopc_dump_import_loop t_weak_deps s
  let s := iopc_dump_import_loop i_deps s
  s.1

/-! ## Types of fields -/

/-- `iopc_dump_package_member`: the name of a type, qualified by the alias
of its package when that is not the package being written.  The comparison
`pkg != member_pkg` is one of addresses.  (`assert (member_path->bits.len)`
is a check of the debug build and writes nothing.) -/
def iopc_dump_package_member (buf : sb_t) (pkg : iopc_pkg_t)
    (member_pkg : Nat) (member_path : iopc_path_t) (member_name : String) :
    sb_t :=
  let buf := if pkg.addr ≠ member_pkg then
      (buf ++ pp_under member_path) ++ "."
    else buf
  buf ++ member_name

section externals

variable (t_camelcase_to_c : String → String)
variable (iopc_is_class : iopc_struct_type_t → Bool)

/-- `iopc_dump_field_basetype`. -/
def iopc_dump_field_basetype (buf : sb_t) (pkg : iopc_pkg_t)
    (field : iopc_field_t) : sb_t :=
  match field.kind with
  | .IOP_T_I8 => buf ++ "i8"
  | .IOP_T_U8 => buf ++ "u8"
  | .IOP_T_I16 => buf ++ "i16"
  | .IOP_T_U16 => buf ++ "u16"
  | .IOP_T_I32 => buf ++ "i32"
  | .IOP_T_U32 => buf ++ "u32"
  | .IOP_T_I64 => buf ++ "i64"
  | .IOP_T_U64 => buf ++ "u64"
  | .IOP_T_BOOL => buf ++ "bool"
  | .IOP_T_DOUBLE => buf ++ "f64"
  | .IOP_T_VOID => buf ++ "()"
  | .IOP_T_STRING | .IOP_T_XML | .IOP_T_DATA => buf ++ "String"
  | .IOP_T_STRUCT =>
    let is_class := iopc_is_class field.struct_def_type
    let buf :=
      if is_class then buf ++ "Box<dyn "
      else if field.is_ref then buf ++ "Box<"
      else buf
    let buf := iopc_dump_package_member buf pkg field.type_pkg
      field.type_path field.type_name
    if is_class || field.is_ref then buf ++ ">" else buf
  | .IOP_T_UNION | .IOP_T_ENUM =>
    iopc_dump_package_member buf pkg field.type_pkg field.type_path
      field.type_name

/-- Flag `DEFVAL_AS_OPT` of `iopc_rust_dump_flags_t`. -/
def DEFVAL_AS_OPT : Nat := 1 <<< 0

/-- Flag `ENUM_STYLE` of `iopc_rust_dump_flags_t`. -/
def ENUM_STYLE : Nat := 1 <<< 1

/-- `iopc_dump_field_type`.  The `switch` leaves the text it opens with and
`close_bracket`; `IOP_R_DEFVAL` falls through to `IOP_R_OPTIONAL` when the
flag is set. -/
def iopc_dump_field_type (buf : sb_t) (pkg : iopc_pkg_t)
    (field : iopc_field_t) (flags : Nat) : sb_t :=
  let s : sb_t × Bool :=
    match field.repeat_ with
    | .IOP_R_REPEATED => (buf ++ "Vec<", true)
    | .IOP_R_DEFVAL =>
      if ¬ (flags &&& DEFVAL_AS_OPT ≠ 0) then (buf, false)
      else (buf ++ "Option<", true)
    | .IOP_R_OPTIONAL => (buf ++ "Option<", true)
    | .IOP_R_REQUIRED => (buf, false)
  let buf := iopc_dump_field_basetype iopc_is_class s.1 pkg field
  if s.2 then buf ++ ">" else buf

/-- `iopc_dump_field`. -/
def iopc_dump_field (buf : sb_t) (pkg : iopc_pkg_t) (field : iopc_field_t)
    (flags : Nat) : sb_t :=
  let pfx := if is_name_reserved field.name then "r#" else ""
  if flags &&& ENUM_STYLE ≠ 0 then
    let buf := buf ++ pfx ++ t_field_name_to_camelcase field.name ++ "("
    let buf := iopc_dump_field_type iopc_is_class buf pkg field flags
    buf ++ ")"
  else
    let buf := buf ++ pfx ++ t_camelcase_to_c field.name ++ ": "
    iopc_dump_field_type iopc_is_class buf pkg field flags

/-- The stored word `defval.u64`, 64 bits wide. -/
def defval_u64 (field : iopc_field_t) : Nat := field.defval.u64 % 2 ^ 64

/-- The word read as `int64_t`: `*(int64_t *)&field->defval.u64`. -/
def defval_i64 (field : iopc_field_t) : Int :=
  if defval_u64 field < 2 ^ 63 then (defval_u64 field : Int)
  else (defval_u64 field : Int) - 2 ^ 64

/-- `iopc_dump_field_defval`.  (In the `default:` case of the `switch`,
`assert (false)` is a check of the debug build; the code after it writes
`Default::default()`.) -/
def iopc_dump_field_defval (buf : sb_t) (pkg : iopc_pkg_t)
    (field : iopc_field_t) (flags : Nat) : sb_t :=
  let pfx := if is_name_reserved field.name then "r#" else ""
  let buf :=
    if flags &&& ENUM_STYLE ≠ 0 then
      buf ++ pfx ++ t_field_name_to_camelcase field.name ++ "("
    else
      buf ++ pfx ++ t_camelcase_to_c field.name ++ ": "
  let buf :=
    if field.repeat_ = .IOP_R_DEFVAL then
      match field.kind with
      | .IOP_T_I8 | .IOP_T_I16 | .IOP_T_I32 | .IOP_T_I64 =>
        buf ++ toString (defval_i64 field)
      | .IOP_T_U8 | .IOP_T_U16 | .IOP_T_U32 | .IOP_T_U64 =>
        buf ++ toString (defval_u64 field)
      | .IOP_T_ENUM => buf ++ "Default::default()"
      | .IOP_T_BOOL =>
        buf ++ (if defval_u64 field ≠ 0 then "true" else "false")
      | .IOP_T_DOUBLE => buf ++ field.defval.d
      | .IOP_T_STRING | .IOP_T_XML | .IOP_T_DATA =>
        buf ++ "\"" ++ field.defval.ptr ++ "\""
      | _ => buf ++ "Default::default()"
    else
      buf ++ "Default::default()"
  if flags &&& ENUM_STYLE ≠ 0 then buf ++ ")" else buf

/-! ## Enums, structs and unions -/

/-- `iopc_dump_enum`.  `en->values.len > 0` is the list being a `cons`, whose
head is `en->values.tab[0]`. -/
def iopc_dump_enum (buf : sb_t) (indent : String) (pkg : iopc_pkg_t)
    (en : iopc_enum_t) : sb_t :=
  let buf := buf ++ "\n" ++ indent
    ++ "#[derive(PartialEq, Eq, Clone, Serialize_repr, Deserialize_repr)]"
  let buf := buf ++ "\n" ++ indent ++ "#[repr(i32)]"
  let buf := buf ++ "\n" ++ indent ++ "pub enum " ++ en.name ++ " \x7b"
  let buf := en.values.foldl (fun buf field =>
    buf ++ "\n" ++ indent ++ "    " ++ field.name ++ " = "
      ++ toString field.value ++ ",") buf
  let buf := buf ++ "\n" ++ indent ++ "\x7d\n"
  match en.values with
  | [] => buf
  | first :: _ =>
    let buf := buf ++ indent ++ "impl Default for " ++ en.name ++ " \x7b\n"
    let buf := buf ++ indent ++ "    fn default() -> Self \x7b\n"
    let buf := buf ++ indent ++ "        " ++ en.name ++ "::" ++ first.name
      ++ "\n"
    let buf := buf ++ indent ++ "    \x7d\n"
    buf ++ indent ++ "\x7d\n"

/-- `iopc_dump_enums`. -/
def iopc_dump_enums (buf : sb_t) (pkg : iopc_pkg_t) : sb_t :=
  pkg.enums.foldl (fun buf en => iopc_dump_enum buf "" pkg en ++ "\n") buf

/-- Order of `BY_TAG`: by increasing tag. -/
def by_tag (f1 f2 : iopc_field_t) : Prop := f1.tag ≤ f2.tag

instance : DecidableRel by_tag := fun f1 f2 => Int.decLe f1.tag f2.tag

/-- Modelled from the spec: `iopc_struct_sort_fields(st, BY_TAG)`, whose code
is outside this file, "sort fields ascending by tag" (§4.3).  It works on
`st->fields` in place, the loops after the call read the sorted vector there;
fields of equal tag keep their order. -/
def iopc_struct_sort_fields (st : iopc_struct_t) : iopc_struct_t :=
  { st with fields := st.fields.insertionSort by_tag }

/-- The loop `while (field->tag > next_tag++)` of `iopc_dump_struct`, which
writes one placeholder per turn: `head` is `"    pub "` in the declaration
and twelve blanks in the constructor.  The test increments `next_tag` also
when it fails.  The first argument bounds the number of turns; the callers
give `(field->tag - next_tag)`, the number of turns the loop takes. -/
def iopc_dump_dummies (indent head : String) (tag : Int) :
    Nat → sb_t × Int → sb_t × Int
  | 0, s => (s.1, s.2 + 1)
  | turns + 1, s =>
    if tag > s.2 then
      let next_tag := s.2 + 1
      iopc_dump_dummies indent head tag turns
        (s.1 ++ "\n" ++ indent ++ head ++ "_dummy" ++ toString (next_tag - 1)
          ++ ": (),", next_tag)
    else (s.1, s.2 + 1)

/-- First loop over the fields in `iopc_dump_struct`: the members of the
declaration.  The state is the buffer and `next_tag`. -/
def iopc_dump_struct_members (indent : String) (pkg : iopc_pkg_t) :
    List iopc_field_t → sb_t × Int → sb_t × Int
  | [], s => s
  | field :: fields, s =>
    let s := iopc_dump_dummies indent "    pub " field.tag
      (field.tag - s.2).toNat s
    let buf := s.1 ++ "\n" ++ indent ++ "    pub "
    let buf := iopc_dump_field t_camelcase_to_c iopc_is_class buf pkg field 0
    iopc_dump_struct_members indent pkg fields (buf ++ ",", s.2)

/-- Second loop over the fields in `iopc_dump_struct`: the entries of the
default constructor. -/
def iopc_dump_struct_defvals (indent : String) (pkg : iopc_pkg_t) :
    List iopc_field_t → sb_t × Int → sb_t × Int
  | [], s => s
  | field :: fields, s =>
    let s := iopc_dump_dummies indent "            " field.tag
      (field.tag - s.2).toNat s
    let buf := s.1 ++ "\n" ++ indent ++ "            "
    let buf := iopc_dump_field_defval t_camelcase_to_c buf pkg field 0
    iopc_dump_struct_defvals indent pkg fields (buf ++ ",", s.2)

/-- `iopc_dump_struct`.  Returns the buffer and the struct as the call leaves
it (its fields sorted). -/
def iopc_dump_struct (buf : sb_t) (indent : String) (pkg : iopc_pkg_t)
    (st : iopc_struct_t) (st_name : Option String) : sb_t × iopc_struct_t :=
  let is_class := iopc_is_class st.type
  let next_tag : Int := 1
  let st_name := match st_name with
    | none => st.name
    | some n => n
  let st := iopc_struct_sort_fields st
  let buf := buf ++ indent ++ "#[derive(Clone, Serialize, Deserialize)]\n"
  let buf := buf ++ indent ++ "pub struct " ++ st_name
    ++ (if is_class then "Obj" else "") ++ " \x7b"
  let buf := (iopc_dump_struct_members t_camelcase_to_c iopc_is_class indent
    pkg st.fields (buf, next_tag)).1
  let buf := buf ++ (if st.fields.length ≠ 0 then "\n" else "") ++ indent
    ++ "\x7d\n"
  let buf := buf ++ indent ++ "impl Default for " ++ st_name ++ " \x7b\n"
  let buf := buf ++ indent ++ "    fn default() -> Self \x7b\n"
  let buf := buf ++ indent ++ "        Self \x7b"
  let next_tag : Int := 1
  let buf := (iopc_dump_struct_defvals t_camelcase_to_c indent pkg st.fields
    (buf, next_tag)).1
  let buf := buf ++ "\n" ++ indent ++ "        \x7d\n"
  let buf := buf ++ indent ++ "    \x7d\n"
  let buf := buf ++ indent ++ "\x7d\n"
  let buf :=
    if iopc_is_class st.type then
      let buf := buf ++ indent ++ "pub trait " ++ st_name ++ " \x7b\x7d\n"
      match st.extends_ with
      | [] => buf
      | parent :: _ =>
        buf ++ indent ++ "impl " ++ parent.st_name ++ " for " ++ st_name
          ++ " \x7b\x7d\n"
    else buf
  (buf, st)

/-- The loop over the fields in `iopc_dump_union`: one variant per field. -/
def iopc_dump_union_variants (indent : String) (pkg : iopc_pkg_t) :
    List iopc_field_t → sb_t → sb_t
  | [], buf => buf
  | field :: fields, buf =>
    let buf := buf ++ "\n" ++ indent ++ "    "
    let buf := iopc_dump_field t_camelcase_to_c iopc_is_class buf pkg field
      ENUM_STYLE
    iopc_dump_union_variants indent pkg fields (buf ++ ",")

/-- `iopc_dump_union`.  Returns the buffer and the union as the call leaves
it (its fields sorted). -/
def iopc_dump_union (buf : sb_t) (indent : String) (pkg : iopc_pkg_t)
    (st : iopc_struct_t) (st_name : Option String) : sb_t × iopc_struct_t :=
  let st_name := match st_name with
    | none => st.name
    | some n => n
  let st := iopc_struct_sort_fields st
  let buf := buf ++ indent ++ "#[derive(Clone, Serialize, Deserialize)]\n"
  let buf := buf ++ indent ++ "pub enum " ++ st_name ++ " \x7b"
  let buf := iopc_dump_union_variants t_camelcase_to_c iopc_is_class indent
    pkg st.fields buf
  let buf := buf ++ "\n" ++ indent ++ "\x7d\n"
  let buf :=
    match st.fields with
    | [] => buf
    | first :: _ =>
      let buf := buf ++ indent ++ "impl Default for " ++ st_name
        ++ " \x7b\n"
      let buf := buf ++ indent ++ "    fn default() -> Self \x7b\n"
      let buf := buf ++ indent ++ "        " ++ st_name ++ "::"
      let buf := iopc_dump_field_defval t_camelcase_to_c buf pkg first
        ENUM_STYLE
      let buf := buf ++ "\n" ++ indent ++ "    \x7d\n"
      buf ++ indent ++ "\x7d\n"
  (buf, st)

/-- `iopc_dump_structs`.  Returns the buffer and `pkg->structs` as the loop
leaves it. -/
def iopc_dump_structs_loop (pkg : iopc_pkg_t) :
    List iopc_struct_t → sb_t → sb_t × List iopc_struct_t
  | [], buf => (buf, [])
  | st :: sts, buf =>
    let r : sb_t × iopc_struct_t :=
      match st.type with
      | .STRUCT_TYPE_STRUCT | .STRUCT_TYPE_CLASS =>
        let r := iopc_dump_struct t_camelcase_to_c iopc_is_class buf "" pkg st
          none
        (r.1 ++ "\n", r.2)
      | .STRUCT_TYPE_UNION =>
        let r := iopc_dump_union t_camelcase_to_c iopc_is_class buf "" pkg st
          none
        (r.1 ++ "\n", r.2)
      | .STRUCT_TYPE_OTHER => (buf, st)
    let rs := iopc_dump_structs_loop pkg sts r.1
    (rs.1, r.2 :: rs.2)

/-! ## Interfaces -/

/-- One of the three payload blocks of `iopc_dump_rpc` (arguments, result,
exception), which differ by the suffix `role` (`Args`, `Res`, `Exn`) and by
the members of the RPC they read: `st` is `rpc->arg`, `is_anonymous` is
`rpc->arg_is_anonymous`, `f` is `rpc->farg`.  Returns the buffer and the
payload struct as the block leaves it. -/
def iopc_dump_rpc_payload (buf : sb_t) (pkg : iopc_pkg_t) (name role : String)
    (st : Option iopc_struct_t) (is_anonymous : Bool) (f : iopc_field_t) :
    sb_t × Option iopc_struct_t :=
  match st with
  | some st =>
    if is_anonymous then
      let r := iopc_dump_struct t_camelcase_to_c iopc_is_class buf "        "
        pkg st (some (name ++ role))
      (r.1, some r.2)
    else
      let buf := buf ++ "        #[derive(Serialize, Deserialize)]\n"
      let buf := buf ++ "        pub struct " ++ name ++ role ++ "(pub "
      let buf := iopc_dump_field_basetype iopc_is_class buf pkg f
      (buf ++ ");\n", some st)
  | none =>
    (buf ++ "        pub type " ++ name ++ role ++ " = ();\n", none)

/-- `iopc_dump_rpc`.  Returns the buffer and the RPC as the call leaves it
(the fields of its anonymous payloads sorted). -/
def iopc_dump_rpc (buf : sb_t) (pkg : iopc_pkg_t) (rpc : iopc_fun_t) :
    sb_t × iopc_fun_t :=
  let name := t_field_name_to_camelcase rpc.name
  let a := iopc_dump_rpc_payload t_camelcase_to_c iopc_is_class buf pkg name
    "Args" rpc.arg rpc.arg_is_anonymous rpc.farg
  let r := iopc_dump_rpc_payload t_camelcase_to_c iopc_is_class a.1 pkg name
    "Res" rpc.res rpc.res_is_anonymous rpc.fres
  let e := iopc_dump_rpc_payload t_camelcase_to_c iopc_is_class r.1 pkg name
    "Exn" rpc.exn rpc.exn_is_anonymous rpc.fexn
  let buf := e.1
  let buf := buf ++ "        pub struct " ++ name ++ " \x7b\x7d\n"
  let buf := buf ++ "        impl libcommon_ic::types::Rpc for " ++ name
    ++ " \x7b\n"
  let buf := buf ++ "            type Input = " ++ name ++ "Args;\n"
  let buf := buf ++ "            type Output = " ++ name ++ "Res;\n"
  let buf := buf ++ "            type Exception = " ++ name ++ "Exn;\n"
  let buf := buf ++ "            const TAG: u16 = " ++ toString rpc.tag
    ++ ";\n"
  let buf := buf ++ "            const ASYNC: bool = "
    ++ (if rpc.fun_is_async then "true" else "false") ++ ";\n"
  let buf := buf ++ "        \x7d\n"
  (buf, { rpc with arg := a.2, res := r.2, exn := e.2 })

/-- The loop over `iface->funs` in `iopc_dump_iface`; the state is the
buffer and the flag `first`. -/
def iopc_dump_iface_funs (pkg : iopc_pkg_t) :
    List iopc_fun_t → sb_t × Bool → sb_t × List iopc_fun_t
  | [], s => (s.1, [])
  | rpc :: rpcs, s =>
    let buf := if s.2 then s.1 else s.1 ++ "\n"
    let r := iopc_dump_rpc t_camelcase_to_c iopc_is_class buf pkg rpc
    let rs := iopc_dump_iface_funs pkg rpcs (r.1, false)
    (rs.1, r.2 :: rs.2)

/-- `iopc_dump_iface`. -/
def iopc_dump_iface (buf : sb_t) (pkg : iopc_pkg_t) (iface : iopc_iface_t) :
    sb_t × iopc_iface_t :=
  let name := t_camelcase_to_c iface.name
  let buf := buf ++ "    pub mod " ++ name ++ " \x7b\n"
  let buf := buf ++ "        use super::super::*;\n"
  let buf := buf ++ "        use libcommon_ic;\n\n"
  let r := iopc_dump_iface_funs t_camelcase_to_c iopc_is_class pkg iface.funs
    (buf, true)
  (r.1 ++ "    \x7d\n", { iface with funs := r.2 })

/-- The loop over `pkg->ifaces` in `iopc_dump_ifaces`; the state is the
buffer and the flag `first`. -/
def iopc_dump_ifaces_loop (pkg : iopc_pkg_t) :
    List iopc_iface_t → sb_t × Bool → sb_t × List iopc_iface_t
  | [], s => (s.1, [])
  | iface :: ifaces, s =>
    match iface.type with
    | .IFACE_TYPE_IFACE =>
      let buf := if s.2 then s.1 else s.1 ++ "\n"
      let r := iopc_dump_iface t_camelcase_to_c iopc_is_class buf pkg iface
      let rs := iopc_dump_ifaces_loop pkg ifaces (r.1, false)
      (rs.1, r.2 :: rs.2)
    | .IFACE_TYPE_OTHER =>
      let rs := iopc_dump_ifaces_loop pkg ifaces s
      (rs.1, iface :: rs.2)

/-- `iopc_dump_ifaces`. -/
def iopc_dump_ifaces (buf : sb_t) (pkg : iopc_pkg_t) :
    sb_t × List iopc_iface_t :=
  let buf := buf ++ "pub mod rpcs \x7b\n"
  let r := iopc_dump_ifaces_loop t_camelcase_to_c iopc_is_class pkg pkg.ifaces
    (buf, true)
  (r.1 ++ "\x7d\n", r.2)

/-! ## Modules -/

/-- `lstr_ascii_toupper`: the ASCII letters in upper case. -/
def lstr_ascii_toupper (s : String) : String := ⟨s.data.map Char.toUpper⟩

/-- `iopc_dump_modules`. -/
def iopc_dump_modules (buf : sb_t) (pkg : iopc_pkg_t) : sb_t :=
  if pkg.modules.length = 0 then buf
  else
    let buf := buf ++ "\npub mod modules \x7b\n"
    let buf := pkg.modules.foldl (fun buf mod =>
      let buf := buf ++ "    pub mod " ++ t_camelcase_to_c mod.name
        ++ " \x7b\n"
      let buf := mod.fields.foldl (fun buf f =>
        let fname := lstr_ascii_toupper (t_camelcase_to_c f.name)
        buf ++ "        pub const " ++ fname ++ ": u16 = " ++ toString f.tag
          ++ ";\n") buf
      buf ++ "    \x7d\n") buf
    buf ++ "\x7d\n"

/-! ## The package -/

/-- `iopc_do_rust` up to the call of `iopc_write_file`: the buffer handed to
it, and the package as the emission leaves it.  The three lists are the
result of `iopc_get_depends` on the package. -/
def iopc_do_rust (pkg : iopc_pkg_t)
    (t_deps t_weak_deps i_deps : List iopc_pkg_t) : sb_t × iopc_pkg_t :=
  let buf : sb_t := ""
  let buf := buf ++ RO_WARN
  let buf := buf ++ "use serde_iop::\x7bSerialize, Deserialize\x7d;\n"
  let buf :=
    if pkg.enums.length > 0 then
      buf ++ "use serde_repr::\x7bSerialize_repr, Deserialize_repr\x7d;\n"
    else buf
  let buf := iopc_dump_imports buf t_deps t_weak_deps i_deps
  let buf := iopc_dump_enums buf pkg
  let sts := iopc_dump_structs_loop t_camelcase_to_c iopc_is_class pkg
    pkg.structs buf
  let pkg := { pkg with structs := sts.2 }
  let ifs := iopc_dump_ifaces t_camelcase_to_c iopc_is_class sts.1 pkg
  let pkg := { pkg with ifaces := ifs.2 }
  let buf := iopc_dump_modules t_camelcase_to_c ifs.1 pkg
  (buf, pkg)

end externals

open iop_type_t iop_repeat_t iopc_struct_type_t

/-! ## What a call appends

The text a dump function appends does not depend on the buffer it gets; the
definitions below name that text, the call on the empty buffer. -/

/-- Text `iopc_dump_package_member` appends. -/
def package_member_text (pkg : iopc_pkg_t) (member_pkg : Nat)
    (member_path : iopc_path_t) (member_name : String) : String :=
  iopc_dump_package_member "" pkg member_pkg member_path member_name

section externals
variable (t_camelcase_to_c : String → String)
variable (iopc_is_class : iopc_struct_type_t → Bool)

/-- Text `iopc_dump_field_basetype` appends: the base type expression. -/
def basetype_text (pkg : iopc_pkg_t) (field : iopc_field_t) : String :=
  iopc_dump_field_basetype iopc_is_class "" pkg field

/-- Text `iopc_dump_field_type` appends: the type of the field. -/
def field_type_text (pkg : iopc_pkg_t) (field : iopc_field_t) (flags : Nat) :
    String :=
  iopc_dump_field_type iopc_is_class "" pkg field flags

/-- Text `iopc_dump_field` appends. -/
def field_text (pkg : iopc_pkg_t) (field : iopc_field_t) (flags : Nat) :
    String :=
  iopc_dump_field t_camelcase_to_c iopc_is_class "" pkg field flags

/-- Text `iopc_dump_field_defval` appends. -/
def field_defval_text (pkg : iopc_pkg_t) (field : iopc_field_t)
    (flags : Nat) : String :=
  iopc_dump_field_defval t_camelcase_to_c "" pkg field flags

end externals

/-- The texts of a list written one after the other. -/
def sb_concat (l : List String) : String := l.foldr (fun s r => s ++ r) ""

/-- The import statement `iopc_dump_import` writes for a dependency. -/
def import_text (dep : iopc_pkg_t) : String :=
  "import * as " ++ pp_under dep.name ++ " from \"iop/" ++ pp_path dep.name
    ++ ".iop\";\n"

/-- The alias a dependency is imported under. -/
def import_alias (dep : iopc_pkg_t) : String := pp_under dep.name

/-- The first occurrences of the aliases of a list of dependencies: the
dependency at position `i` is kept when no dependency before position `i`
has its alias. -/
def first_occurrences (deps : List iopc_pkg_t) : List iopc_pkg_t :=
  (List.range deps.length).filterMap fun i =>
    (deps.get? i).bind fun dep =>
      if import_alias dep ∈ (deps.take i).map import_alias then none
      else some dep

/-- The dependencies a loop of `iopc_dump_imports` writes an import for,
given the aliases already in the set. -/
def imports_written (imported : qh_cstr) : List iopc_pkg_t → List iopc_pkg_t
  | [] => []
  | dep :: deps =>
    if import_alias dep ∈ imported then imports_written imported deps
    else dep :: imports_written (import_alias dep :: imported) deps

/-- The escape `iopc_dump_field` and `iopc_dump_field_defval` put before the
name of a field. -/
def name_escape (field : iopc_field_t) : String :=
  if is_name_reserved field.name then "r#" else ""

/-- The value `iopc_dump_field_defval` writes after the name of the field:
the literal of the default of a defaulted field, `Default::default()`
otherwise. -/
def defval_literal (field : iopc_field_t) : String :=
  if field.repeat_ = IOP_R_DEFVAL then
    match field.kind with
    | IOP_T_I8 | IOP_T_I16 | IOP_T_I32 | IOP_T_I64 =>
      toString (defval_i64 field)
    | IOP_T_U8 | IOP_T_U16 | IOP_T_U32 | IOP_T_U64 =>
      toString (defval_u64 field)
    | IOP_T_ENUM => "Default::default()"
    | IOP_T_BOOL => if defval_u64 field ≠ 0 then "true" else "false"
    | IOP_T_DOUBLE => field.defval.d
    | IOP_T_STRING | IOP_T_XML | IOP_T_DATA =>
      "\"" ++ field.defval.ptr ++ "\""
    | _ => "Default::default()"
  else "Default::default()"

/-- A member of an emitted struct: the placeholder of a tag without field,
or a field. -/
inductive struct_member_t where
  | dummy (k : Int)
  | real (field : iopc_field_t)
deriving DecidableEq, Repr

/-- The placeholders the loop `while (field->tag > next_tag++)` writes and
the value it leaves in `next_tag`; it follows `iopc_dump_dummies`. -/
def dummy_members (tag : Int) : Nat → Int → List struct_member_t × Int
  | 0, next_tag => ([], next_tag + 1)
  | turns + 1, next_tag =>
    if tag > next_tag then
      let r := dummy_members tag turns (next_tag + 1)
      (struct_member_t.dummy (next_tag + 1 - 1) :: r.1, r.2)
    else ([], next_tag + 1)

/-- The members a loop over the fields of `iopc_dump_struct` writes, in the
order it writes them, `next_tag` being the value at the start. -/
def struct_members : List iopc_field_t → Int → List struct_member_t
  | [], _ => []
  | field :: fields, next_tag =>
    let r := dummy_members field.tag (field.tag - next_tag).toNat next_tag
    r.1 ++ struct_member_t.real field :: struct_members fields r.2

/-- The largest tag of a list of fields, 0 when the list is empty. -/
def largest_tag (fields : List iopc_field_t) : Int :=
  fields.foldl (fun m f => max m f.tag) 0

section externals
variable (t_camelcase_to_c : String → String)
variable (iopc_is_class : iopc_struct_type_t → Bool)

/-- The name of a member as `iopc_dump_struct` writes it. -/
def member_name : struct_member_t → String
  | .dummy k => "_dummy" ++ toString k
  | .real field => name_escape field ++ t_camelcase_to_c field.name

/-- The type of a member in the declaration. -/
def member_type (pkg : iopc_pkg_t) : struct_member_t → String
  | .dummy _ => "()"
  | .real field => field_type_text iopc_is_class pkg field 0

/-- The value of a member in the default constructor. -/
def member_defval : struct_member_t → String
  | .dummy _ => "()"
  | .real field => defval_literal field

/-- The line of a member in the declaration of the struct. -/
def decl_member_text (indent : String) (pkg : iopc_pkg_t)
    (m : struct_member_t) : String :=
  "\n" ++ indent ++ "    pub " ++ member_name t_camelcase_to_c m ++ ": "
    ++ member_type iopc_is_class pkg m ++ ","

/-- The line of a member in the `Self` expression of the default
constructor. -/
def defval_member_text (indent : String) (m : struct_member_t) : String :=
  "\n" ++ indent ++ "            " ++ member_name t_camelcase_to_c m ++ ": "
    ++ member_defval m ++ ","

/-- What `iopc_dump_struct` writes before the members of the declaration. -/
def struct_head (indent st_name : String) (st : iopc_struct_t) : String :=
  indent ++ "#[derive(Clone, Serialize, Deserialize)]\n" ++ indent
    ++ "pub struct " ++ st_name
    ++ (if iopc_is_class st.type then "Obj" else "") ++ " \x7b"

/-- What `iopc_dump_struct` writes between the members of the declaration
and the entries of the default constructor. -/
def struct_mid (indent st_name : String) (st : iopc_struct_t) : String :=
  (if st.fields.length ≠ 0 then "\n" else "") ++ indent ++ "\x7d\n"
    ++ indent ++ "impl Default for " ++ st_name ++ " \x7b\n"
    ++ indent ++ "    fn default() -> Self \x7b\n"
    ++ indent ++ "        Self \x7b"

/-- What `iopc_dump_struct` writes after the entries of the default
constructor. -/
def struct_tail (indent st_name : String) (st : iopc_struct_t) : String :=
  "\n" ++ indent ++ "        \x7d\n" ++ indent ++ "    \x7d\n" ++ indent
    ++ "\x7d\n"
    ++ (if iopc_is_class st.type then
          indent ++ "pub trait " ++ st_name ++ " \x7b\x7d\n"
            ++ (match st.extends_ with
                | [] => ""
                | parent :: _ =>
                  indent ++ "impl " ++ parent.st_name ++ " for " ++ st_name
                    ++ " \x7b\x7d\n")
        else "")

end externals

/-- The member that stands for tag `k` in a list of fields: the first field
of tag `k`, the placeholder of `k` when there is none. -/
def member_at (fields : List iopc_field_t) (k : Int) : struct_member_t :=
  match fields.find? (fun f => f.tag = k) with
  | some f => .real f
  | none => .dummy k

/-- The members `iopc_dump_struct` writes for a struct, in the order it
writes them: the loop runs over the sorted fields from `next_tag = 1`. -/
def emitted_members (st : iopc_struct_t) : List struct_member_t :=
  struct_members (iopc_struct_sort_fields st).fields 1

/-- The fold of `largest_tag` does not depend on the order of the fields. -/
instance max_tag_right_comm :
    RightCommutative (fun (m : Int) (f : iopc_field_t) => max m f.tag) :=
  ⟨fun b a₁ a₂ => by simp only [max_assoc, max_comm a₁.tag a₂.tag]⟩

/-- The order `by_tag` is total. -/
instance by_tag_total : IsTotal iopc_field_t by_tag :=
  ⟨fun f1 f2 => Int.le_total f1.tag f2.tag⟩

/-- The order `by_tag` is transitive. -/
instance by_tag_trans : IsTrans iopc_field_t by_tag :=
  ⟨fun _ _ _ h1 h2 => Int.le_trans h1 h2⟩

section externals
variable (t_camelcase_to_c : String → String)
variable (iopc_is_class : iopc_struct_type_t → Bool)

/-- The declaration `iopc_dump_union` writes for a union of name `st_name`
whose sorted fields are `fields`: one variant per field. -/
def union_decl_text (indent : String) (pkg : iopc_pkg_t) (st_name : String)
    (fields : List iopc_field_t) : String :=
  indent ++ "#[derive(Clone, Serialize, Deserialize)]\n" ++ indent
    ++ "pub enum " ++ st_name ++ " \x7b"
    ++ sb_concat (fields.map (fun f =>
        "\n" ++ indent ++ "    "
          ++ field_text t_camelcase_to_c iopc_is_class pkg f ENUM_STYLE
          ++ ","))
    ++ "\n" ++ indent ++ "\x7d\n"

/-- The `impl Default` block `iopc_dump_union` writes for a union of name
`st_name` whose sorted fields are `fields`; `variant` is what it writes after
`st_name::`. -/
def union_default_text (indent st_name variant : String) : String :=
  indent ++ "impl Default for " ++ st_name ++ " \x7b\n"
    ++ indent ++ "    fn default() -> Self \x7b\n"
    ++ indent ++ "        " ++ st_name ++ "::" ++ variant
    ++ "\n" ++ indent ++ "    \x7d\n" ++ indent ++ "\x7d\n"

end externals

/-! ## What an emission writes and what it leaves

`iopc_dump_struct` and `iopc_dump_union` sort the fields of the struct they
get in place.  The definitions below give the text each function of the file
appends, and the struct, RPC, interface and package it leaves. -/

/-- A struct of `pkg->structs` as `iopc_dump_structs` leaves it. -/
def struct_after (st : iopc_struct_t) : iopc_struct_t :=
  match st.type with
  | STRUCT_TYPE_STRUCT | STRUCT_TYPE_CLASS | STRUCT_TYPE_UNION =>
    iopc_struct_sort_fields st
  | STRUCT_TYPE_OTHER => st

/-- A payload of an RPC as `iopc_dump_rpc` leaves it: an anonymous struct has
been through `iopc_dump_struct`. -/
def payload_after (st : Option iopc_struct_t) (is_anonymous : Bool) :
    Option iopc_struct_t :=
  match st with
  | some st => if is_anonymous then some (iopc_struct_sort_fields st) else some st
  | none => none

/-- An RPC as `iopc_dump_rpc` leaves it. -/
def rpc_after (rpc : iopc_fun_t) : iopc_fun_t :=
  { rpc with arg := payload_after rpc.arg rpc.arg_is_anonymous,
             res := payload_after rpc.res rpc.res_is_anonymous,
             exn := payload_after rpc.exn rpc.exn_is_anonymous }

/-- An interface as `iopc_dump_ifaces` leaves it. -/
def iface_after (iface : iopc_iface_t) : iopc_iface_t :=
  match iface.type with
  | .IFACE_TYPE_IFACE => { iface with funs := iface.funs.map rpc_after }
  | .IFACE_TYPE_OTHER => iface

/-- A package as `iopc_do_rust` leaves it. -/
def pkg_after (pkg : iopc_pkg_t) : iopc_pkg_t :=
  { pkg with structs := pkg.structs.map struct_after,
             ifaces := pkg.ifaces.map iface_after }

section externals
variable (t_camelcase_to_c : String → String)
variable (iopc_is_class : iopc_struct_type_t → Bool)

/-- Text `iopc_dump_struct` appends. -/
def struct_text (indent : String) (pkg : iopc_pkg_t) (st : iopc_struct_t)
    (st_name : Option String) : String :=
  struct_head iopc_is_class indent (st_name.getD st.name) st
    ++ sb_concat ((emitted_members st).map
        (decl_member_text t_camelcase_to_c iopc_is_class indent pkg))
    ++ struct_mid indent (st_name.getD st.name) st
    ++ sb_concat ((emitted_members st).map
        (defval_member_text t_camelcase_to_c indent))
    ++ struct_tail iopc_is_class indent (st_name.getD st.name) st

/-- Text `iopc_dump_union` appends. -/
def union_text (indent : String) (pkg : iopc_pkg_t) (st : iopc_struct_t)
    (st_name : Option String) : String :=
  union_decl_text t_camelcase_to_c iopc_is_class indent pkg
      (st_name.getD st.name) (iopc_struct_sort_fields st).fields
    ++ (match (iopc_struct_sort_fields st).fields with
        | [] => ""
        | first :: _ =>
          union_default_text indent (st_name.getD st.name)
            (field_defval_text t_camelcase_to_c pkg first ENUM_STYLE))

/-- Text one turn of the loop of `iopc_dump_structs` appends. -/
def struct_entry_text (pkg : iopc_pkg_t) (st : iopc_struct_t) : String :=
  match st.type with
  | STRUCT_TYPE_STRUCT | STRUCT_TYPE_CLASS =>
    struct_text t_camelcase_to_c iopc_is_class "" pkg st none ++ "\n"
  | STRUCT_TYPE_UNION =>
    union_text t_camelcase_to_c iopc_is_class "" pkg st none ++ "\n"
  | STRUCT_TYPE_OTHER => ""

/-- Text a payload block of `iopc_dump_rpc` appends. -/
def payload_text (pkg : iopc_pkg_t) (name role : String)
    (st : Option iopc_struct_t) (is_anonymous : Bool) (f : iopc_field_t) :
    String :=
  match st with
  | some st =>
    if is_anonymous then
      struct_text t_camelcase_to_c iopc_is_class "        " pkg st
        (some (name ++ role))
    else
      "        #[derive(Serialize, Deserialize)]\n" ++ "        pub struct "
        ++ name ++ role ++ "(pub " ++ basetype_text iopc_is_class pkg f
        ++ ");\n"
  | none => "        pub type " ++ name ++ role ++ " = ();\n"

/-- The marker struct and the `impl ... Rpc` block `iopc_dump_rpc` writes
after the payloads; `name` is the name of the RPC, first letter in upper
case. -/
def rpc_descriptor_text (name : String) (rpc : iopc_fun_t) : String :=
  "        pub struct " ++ name ++ " \x7b\x7d\n"
    ++ "        impl libcommon_ic::types::Rpc for " ++ name ++ " \x7b\n"
    ++ "            type Input = " ++ name ++ "Args;\n"
    ++ "            type Output = " ++ name ++ "Res;\n"
    ++ "            type Exception = " ++ name ++ "Exn;\n"
    ++ "            const TAG: u16 = " ++ toString rpc.tag ++ ";\n"
    ++ "            const ASYNC: bool = "
    ++ (if rpc.fun_is_async then "true" else "false") ++ ";\n"
    ++ "        \x7d\n"

/-- Text `iopc_dump_rpc` appends. -/
def rpc_text (pkg : iopc_pkg_t) (rpc : iopc_fun_t) : String :=
  payload_text t_camelcase_to_c iopc_is_class pkg
      (t_field_name_to_camelcase rpc.name) "Args" rpc.arg
      rpc.arg_is_anonymous rpc.farg
    ++ payload_text t_camelcase_to_c iopc_is_class pkg
      (t_field_name_to_camelcase rpc.name) "Res" rpc.res
      rpc.res_is_anonymous rpc.fres
    ++ payload_text t_camelcase_to_c iopc_is_class pkg
      (t_field_name_to_camelcase rpc.name) "Exn" rpc.exn
      rpc.exn_is_anonymous rpc.fexn
    ++ rpc_descriptor_text (t_field_name_to_camelcase rpc.name) rpc

/-- Text the loop over the RPCs of `iopc_dump_iface` appends, `first` being
the flag at the start. -/
def funs_text (pkg : iopc_pkg_t) : List iopc_fun_t → Bool → String
  | [], _ => ""
  | rpc :: rpcs, first =>
    (if first then "" else "\n")
      ++ rpc_text t_camelcase_to_c iopc_is_class pkg rpc
      ++ funs_text pkg rpcs false

/-- Text `iopc_dump_iface` appends. -/
def iface_text (pkg : iopc_pkg_t) (iface : iopc_iface_t) : String :=
  "    pub mod " ++ t_camelcase_to_c iface.name ++ " \x7b\n"
    ++ "        use super::super::*;\n"
    ++ "        use libcommon_ic;\n\n"
    ++ funs_text t_camelcase_to_c iopc_is_class pkg iface.funs true
    ++ "    \x7d\n"

/-- Text the loop of `iopc_dump_ifaces` appends, `first` being the flag at
the start. -/
def ifaces_text (pkg : iopc_pkg_t) : List iopc_iface_t → Bool → String
  | [], _ => ""
  | iface :: ifaces, first =>
    match iface.type with
    | .IFACE_TYPE_IFACE =>
      (if first then "" else "\n")
        ++ iface_text t_camelcase_to_c iopc_is_class pkg iface
        ++ ifaces_text pkg ifaces false
    | .IFACE_TYPE_OTHER => ifaces_text pkg ifaces first

/-- Text `iopc_do_rust` hands to `iopc_write_file`. -/
def pkg_text (pkg : iopc_pkg_t)
    (t_deps t_weak_deps i_deps : List iopc_pkg_t) : String :=
  iopc_dump_modules t_camelcase_to_c
    (iopc_dump_enums
        (iopc_dump_imports
          ("" ++ RO_WARN
            ++ "use serde_iop::\x7bSerialize, Deserialize\x7d;\n"
            ++ (if pkg.enums.length > 0 then
                  "use serde_repr::\x7bSerialize_repr, Deserialize_repr\x7d;\n"
                else ""))
          t_deps t_weak_deps i_deps)
        pkg
      ++ sb_concat (pkg.structs.map
          (struct_entry_text t_camelcase_to_c iopc_is_class pkg))
      ++ "pub mod rpcs \x7b\n"
      ++ ifaces_text t_camelcase_to_c iopc_is_class pkg pkg.ifaces true
      ++ "\x7d\n")
    pkg

end externals

/-! ## Reading a decimal literal -/

/-- The number a list of decimal digits stands for; `none` for the empty
list and for a list with a character that is not a digit. -/
def parse_digits (cs : List Char) : Option Nat :=
  if cs ≠ [] ∧ cs.all Char.isDigit = true then
    some (cs.foldl (fun n c => 10 * n + (c.toNat - '0'.toNat)) 0)
  else none

/-- The integer a decimal literal stands for: a minus sign or nothing, then
decimal digits. -/
def parse_decimal (s : String) : Option Int :=
  match s.data with
  | '-' :: cs => (parse_digits cs).map (fun (n : Nat) => -(Int.ofNat n))
  | cs => (parse_digits cs).map (fun (n : Nat) => Int.ofNat n)

/-! ## The identifier of a field -/

section externals
variable (t_camelcase_to_c : String → String)
variable (iopc_is_class : iopc_struct_type_t → Bool)

/-- The identifier `iopc_dump_field` and `iopc_dump_field_defval` write for a
field: the escape, then the name in the case of the style. -/
def field_ident (field : iopc_field_t) (flags : Nat) : String :=
  name_escape field
    ++ (if flags &&& ENUM_STYLE ≠ 0 then t_field_name_to_camelcase field.name
        else t_camelcase_to_c field.name)

end externals

/-- What follows the identifier of a field: `(` in the style of variants,
`: ` in the style of members. -/
def style_sep (flags : Nat) : String :=
  if flags &&& ENUM_STYLE ≠ 0 then "(" else ": "

/-- What closes the entry of a field: `)` in the style of variants, nothing
in the style of members. -/
def style_close (flags : Nat) : String :=
  if flags &&& ENUM_STYLE ≠ 0 then ")" else ""

/-! ## The payload types of an RPC -/

section externals
variable (t_camelcase_to_c : String → String)
variable (iopc_is_class : iopc_struct_type_t → Bool)

/-- The declaration and the default constructor `iopc_dump_struct` writes,
under the name `name`, for a struct that is not a class. -/
def plain_struct_text (indent : String) (pkg : iopc_pkg_t)
    (st : iopc_struct_t) (name : String) : String :=
  indent ++ "#[derive(Clone, Serialize, Deserialize)]\n" ++ indent
    ++ "pub struct " ++ name ++ " \x7b"
    ++ sb_concat ((emitted_members st).map
        (decl_member_text t_camelcase_to_c iopc_is_class indent pkg))
    ++ (if st.fields.length ≠ 0 then "\n" else "") ++ indent ++ "\x7d\n"
    ++ indent ++ "impl Default for " ++ name ++ " \x7b\n"
    ++ indent ++ "    fn default() -> Self \x7b\n"
    ++ indent ++ "        Self \x7b"
    ++ sb_concat ((emitted_members st).map
        (defval_member_text t_camelcase_to_c indent))
    ++ "\n" ++ indent ++ "        \x7d\n" ++ indent ++ "    \x7d\n" ++ indent
    ++ "\x7d\n"

/-- The declaration of the payload type `<name><role>` of an RPC whose
anonymous payloads are not classes: an alias of `()` for an absent payload,
the struct for an anonymous payload, a wrapper of the base type of the field
for an existing type. -/
def payload_decl_text (pkg : iopc_pkg_t) (name role : String)
    (st : Option iopc_struct_t) (is_anonymous : Bool) (f : iopc_field_t) :
    String :=
  match st with
  | none => "        pub type " ++ name ++ role ++ " = ();\n"
  | some st =>
    if is_anonymous then
      plain_struct_text t_camelcase_to_c iopc_is_class "        " pkg st
        (name ++ role)
    else
      "        #[derive(Serialize, Deserialize)]\n" ++ "        pub struct "
        ++ name ++ role ++ "(pub "
        ++ iopc_dump_field_basetype iopc_is_class "" pkg f ++ ");\n"

end externals

/-! ## The names in what is written for a struct -/

/-- The fields of increasing tag are in the strict order of the tags. -/
instance tag_lt_antisymm :
    IsAntisymm iopc_field_t (fun f g => f.tag < g.tag) :=
  ⟨fun f g h1 h2 => absurd h1 (not_lt.2 (le_of_lt h2))⟩

section externals
variable (t_camelcase_to_c : String → String)
variable (iopc_is_class : iopc_struct_type_t → Bool)

/-- The name `iopc_dump_struct` declares the struct under: `st_name`, or the
name of the struct when `st_name` is `NULL`, followed by `Obj` for a
class. -/
def struct_decl_name (st : iopc_struct_t) (st_name : Option String) :
    String :=
  st_name.getD st.name ++ (if iopc_is_class st.type then "Obj" else "")

end externals

/-! ## Sample values -/

/-- A sample field, a repeated reference to `a.b.T` with tag 1. -/
def sample_field : iopc_field_t :=
  { name := "items", tag := 1, kind := IOP_T_STRUCT,
    repeat_ := IOP_R_REPEATED, is_ref := false,
    struct_def_type := STRUCT_TYPE_CLASS, type_pkg := 7,
    type_path := ⟨["a", "b"]⟩, type_name := "T", defval := ⟨0, "", ""⟩ }

/-- A sample package `x.y` at address 1, without content. -/
def sample_pkg : iopc_pkg_t :=
  { addr := 1, name := ⟨["x", "y"]⟩, enums := [], structs := [],
    ifaces := [], modules := [] }

/-- A sample `iopc_is_class`: the classes are the `STRUCT_TYPE_CLASS`. -/
def sample_is_class (t : iopc_struct_type_t) : Bool := t == STRUCT_TYPE_CLASS

/-- A sample field, a by-reference member of union type `U` of the package
at address 1. -/
def sample_union_ref : iopc_field_t :=
  { name := "child", tag := 1, kind := IOP_T_UNION,
    repeat_ := IOP_R_REQUIRED, is_ref := true,
    struct_def_type := STRUCT_TYPE_UNION, type_pkg := 1,
    type_path := ⟨["x", "y"]⟩, type_name := "U", defval := ⟨0, "", ""⟩ }

/-- A sample dependency, the package `a.b`. -/
def sample_dep_a_b : iopc_pkg_t :=
  { addr := 2, name := ⟨["a", "b"]⟩, enums := [], structs := [],
    ifaces := [], modules := [] }

/-- A sample dependency, the package `a__b` (one segment). -/
def sample_dep_a__b : iopc_pkg_t :=
  { addr := 3, name := ⟨["a__b"]⟩, enums := [], structs := [],
    ifaces := [], modules := [] }

/-- A sample dependency, the package `c`. -/
def sample_dep_c : iopc_pkg_t :=
  { addr := 4, name := ⟨["c"]⟩, enums := [], structs := [],
    ifaces := [], modules := [] }

/-- A sample `t_camelcase_to_c`, which leaves a name without capital as it
is. -/
def sample_camelcase_to_c (s : String) : String := s

/-- A sample field of kind `i32`, with its name and tag. -/
def sample_i32 (name : String) (tag : Int) : iopc_field_t :=
  { name := name, tag := tag, kind := IOP_T_I32, repeat_ := IOP_R_REQUIRED,
    is_ref := false, struct_def_type := STRUCT_TYPE_STRUCT, type_pkg := 1,
    type_path := ⟨["x", "y"]⟩, type_name := "", defval := ⟨0, "", ""⟩ }

/-- A sample struct with fields at tags 4, 1 and 2, declared in that
order. -/
def sample_struct_124 : iopc_struct_t :=
  { name := "S", type := STRUCT_TYPE_STRUCT,
    fields := [sample_i32 "d" 4, sample_i32 "a" 1, sample_i32 "b" 2],
    extends_ := [] }

/-- A sample union `U` declared as `b` (tag 2), then `a` (tag 1). -/
def sample_union_b_a : iopc_struct_t :=
  { name := "U", type := STRUCT_TYPE_UNION,
    fields := [sample_i32 "b" 2, sample_i32 "a" 1], extends_ := [] }

/-- A sample package `x.y` with the struct `S` (tags 4, 1, 2 in declaration
order) and the union `U` (tags 2, 1). -/
def sample_pkg_s_u : iopc_pkg_t :=
  { addr := 1, name := ⟨["x", "y"]⟩, enums := [],
    structs := [sample_struct_124, sample_union_b_a], ifaces := [],
    modules := [] }

/-- A sample defaulted `i32` field `n` whose stored word is the two's
complement of -5. -/
def sample_default_minus_5 : iopc_field_t :=
  { sample_i32 "n" 1 with repeat_ := IOP_R_DEFVAL,
                           defval := ⟨18446744073709551611, "", ""⟩ }

/-- A sample defaulted `u64` field `n` whose stored word is 2^64 - 5. -/
def sample_default_u64 : iopc_field_t :=
  { sample_default_minus_5 with kind := IOP_T_U64 }

/-- A sample required `i32` field named `type`. -/
def sample_field_type : iopc_field_t := sample_i32 "type" 1

/-- A sample defaulted field of enum kind, with the stored default 1. -/
def sample_enum_default : iopc_field_t :=
  { sample_i32 "color" 1 with kind := IOP_T_ENUM, repeat_ := IOP_R_DEFVAL,
                               type_name := "Color",
                               defval := ⟨1, "", ""⟩ }

/-- The sample enum `Color` with `RED = 0` and `BLUE = 1`. -/
def sample_enum_color : iopc_enum_t :=
  { name := "Color", values := [⟨"RED", 0⟩, ⟨"BLUE", 1⟩] }

/-- A sample package with one module `m` of two fields, `a` of tag 3 and
`b` of tag 1. -/
def sample_pkg_module : iopc_pkg_t :=
  { sample_pkg with
    modules := [{ name := "m", type := STRUCT_TYPE_OTHER,
                  fields := [sample_i32 "a" 3, sample_i32 "b" 1],
                  extends_ := [] }] }

/-- A sample RPC `doIt` of tag 3, asynchronous: its argument is the existing
type of the repeated field `sample_field`, it has no result, and its
exception is the anonymous struct with fields of tags 4, 1 and 2. -/
def sample_rpc : iopc_fun_t :=
  { name := "doIt", tag := 3, fun_is_async := true,
    arg := some sample_struct_124, arg_is_anonymous := false,
    farg := sample_field,
    res := none, res_is_anonymous := false, fres := sample_field,
    exn := some sample_struct_124, exn_is_anonymous := true,
    fexn := sample_field }

/-- A sample class `X` with one field `a` of tag 1 and the parent `P`. -/
def sample_class : iopc_struct_t :=
  { name := "X", type := STRUCT_TYPE_CLASS, fields := [sample_i32 "a" 1],
    extends_ := [⟨"P"⟩] }

/-- A sample required `i32` field named `fn`, a word the table
`reserved_names_g` does not hold. -/
def sample_field_fn : iopc_field_t := sample_i32 "fn" 1

/-- A sample package with two interfaces that hold the RPC `doIt`, the first
of a kind `iopc_dump_ifaces` skips, the second of the kind it writes. -/
def sample_pkg_ifaces : iopc_pkg_t :=
  { sample_pkg with
    ifaces := [{ name := "skipped", type := .IFACE_TYPE_OTHER,
                 funs := [sample_rpc] },
               { name := "written", type := .IFACE_TYPE_IFACE,
                 funs := [sample_rpc] }] }

/-! ## Every dump function appends to the buffer -/

theorem sb_append_cancel {buf a b : String} (h : buf ++ a = buf ++ b) : a = b := by
  have h1 := congrArg String.data h
  simp only [String.data_append] at h1
  exact String.ext (List.append_cancel_left h1)

theorem iopc_dump_package_member_eq (buf : sb_t) (pkg : iopc_pkg_t)
    (member_pkg : Nat) (member_path : iopc_path_t) (member_name : String) :
    iopc_dump_package_member buf pkg member_pkg member_path member_name
      = buf ++ package_member_text pkg member_pkg member_path member_name := by
  unfold package_member_text iopc_dump_package_member
  split <;> simp [String.append_assoc]

section externals
variable (t_camelcase_to_c : String → String)
variable (iopc_is_class : iopc_struct_type_t → Bool)

theorem iopc_dump_field_basetype_eq (buf : sb_t) (pkg : iopc_pkg_t)
    (field : iopc_field_t) :
    iopc_dump_field_basetype iopc_is_class buf pkg field
      = buf ++ basetype_text iopc_is_class pkg field := by
  unfold basetype_text iopc_dump_field_basetype
  split <;> simp only [iopc_dump_package_member_eq, String.append_assoc, String.empty_append]
  split <;> split <;> simp_all [String.append_assoc]

theorem iopc_dump_field_type_eq (buf : sb_t) (pkg : iopc_pkg_t)
    (field : iopc_field_t) (flags : Nat) :
    iopc_dump_field_type iopc_is_class buf pkg field flags
      = buf ++ field_type_text iopc_is_class pkg field flags := by
  unfold field_type_text iopc_dump_field_type
  simp only [iopc_dump_field_basetype_eq]
  cases h : field.repeat_ <;> by_cases hf : flags &&& DEFVAL_AS_OPT = 0 <;>
    simp [hf, String.append_assoc]

theorem iopc_dump_field_eq (buf : sb_t) (pkg : iopc_pkg_t)
    (field : iopc_field_t) (flags : Nat) :
    iopc_dump_field t_camelcase_to_c iopc_is_class buf pkg field flags
      = buf ++ field_text t_camelcase_to_c iopc_is_class pkg field flags := by
  unfold field_text iopc_dump_field
  simp only [iopc_dump_field_type_eq]
  split <;> simp [String.append_assoc]

theorem iopc_dump_field_defval_eq (buf : sb_t) (pkg : iopc_pkg_t)
    (field : iopc_field_t) (flags : Nat) :
    iopc_dump_field_defval t_camelcase_to_c buf pkg field flags
      = buf ++ field_defval_text t_camelcase_to_c pkg field flags := by
  unfold field_defval_text iopc_dump_field_defval
  by_cases hr : field.repeat_ = .IOP_R_DEFVAL <;>
    by_cases hf : flags &&& ENUM_STYLE = 0 <;>
    cases hk : field.kind <;> simp [hr, hf, String.append_assoc]

/-! ## The type of a field (C6, C7, C8) -/

theorem sb_wrap_ne (buf o B c : String) (h : 0 < o.length) :
    buf ++ B ≠ buf ++ o ++ B ++ c := by
  intro e
  have h1 := congrArg String.length e
  simp only [String.length_append] at h1
  omega

/-- C6 (`iopc_dump_field_type`, wrap ordering).  For every field the type
written is the output of `iopc_dump_field_basetype` between the opening and
the closing text of one cardinality wrapper (none, `Vec<` `>` or `Option<`
`>`), so the wrapper of the reference modifier is inside the one of the
cardinality.  For a repeated field that refers to a class the type is
`Vec<Box<dyn X>>`, `X` being the name `iopc_dump_package_member` writes, and
it does not start with `Box<dyn Vec<`. -/
theorem iopc_dump_field_type_wrap_order (buf : sb_t) (pkg : iopc_pkg_t)
    (field : iopc_field_t) (flags : Nat) :
    (∃ w ∈ [("", ""), ("Vec<", ">"), ("Option<", ">")],
      iopc_dump_field_type iopc_is_class buf pkg field flags
        = buf ++ w.1 ++ iopc_dump_field_basetype iopc_is_class "" pkg field
            ++ w.2) ∧
    (field.repeat_ = IOP_R_REPEATED → field.kind = IOP_T_STRUCT →
      iopc_is_class field.struct_def_type = true →
      iopc_dump_field_type iopc_is_class buf pkg field flags
        = buf ++ "Vec<Box<dyn "
            ++ iopc_dump_package_member "" pkg field.type_pkg field.type_path
                field.type_name ++ ">>" ∧
      ∀ rest : String,
        iopc_dump_field_type iopc_is_class buf pkg field flags
          ≠ buf ++ "Box<dyn Vec<" ++ rest) := by
  have key : ∀ b : sb_t, iopc_dump_field_type iopc_is_class b pkg field flags
      = b ++ field_type_text iopc_is_class pkg field flags :=
    fun b => iopc_dump_field_type_eq iopc_is_class b pkg field flags
  constructor
  · unfold iopc_dump_field_type
    simp only [iopc_dump_field_basetype_eq, String.empty_append]
    cases h : field.repeat_ <;> by_cases hf : flags &&& DEFVAL_AS_OPT = 0 <;>
      simp [hf, String.append_assoc]
  · intro hr hk hc
    have e : iopc_dump_field_type iopc_is_class buf pkg field flags
        = buf ++ "Vec<Box<dyn "
            ++ iopc_dump_package_member "" pkg field.type_pkg field.type_path
                field.type_name ++ ">>" := by
      unfold iopc_dump_field_type iopc_dump_field_basetype
      simp only [hr, hk, hc, iopc_dump_package_member_eq]
      simp [String.append_assoc]
    refine ⟨e, fun rest h => ?_⟩
    rw [e, String.append_assoc, String.append_assoc, String.append_assoc] at h
    have h1 := congrArg String.data (sb_append_cancel h)
    simp [String.data_append] at h1

/-- C6 at a sample: the repeated reference to the class `T` of the package
`a.b`, seen from the package `x.y`. -/
theorem iopc_dump_field_type_wrap_order_witness :
    iopc_dump_field_type sample_is_class "" sample_pkg sample_field 0
      = "Vec<Box<dyn a__b.T>>" := by
  have h := (iopc_dump_field_type_wrap_order sample_is_class "" sample_pkg
    sample_field 0).2 rfl rfl rfl
  exact h.1.trans (by decide)

/-- C7 (`iopc_dump_field_type`, cardinality mapping).  With `B` the base
type expression of the field: a required field gives `B`, a repeated field
`Vec<B>`, an optional field `Option<B>`, and a defaulted field gives
`Option<B>` if and only if the flag `DEFVAL_AS_OPT` is set and the bare `B` if
and only if it is not. -/
theorem iopc_dump_field_type_cardinality (buf : sb_t) (pkg : iopc_pkg_t)
    (field : iopc_field_t) (flags : Nat) :
    (field.repeat_ = IOP_R_REQUIRED →
      iopc_dump_field_type iopc_is_class buf pkg field flags
        = buf ++ basetype_text iopc_is_class pkg field) ∧
    (field.repeat_ = IOP_R_REPEATED →
      iopc_dump_field_type iopc_is_class buf pkg field flags
        = buf ++ "Vec<" ++ basetype_text iopc_is_class pkg field ++ ">") ∧
    (field.repeat_ = IOP_R_OPTIONAL →
      iopc_dump_field_type iopc_is_class buf pkg field flags
        = buf ++ "Option<" ++ basetype_text iopc_is_class pkg field ++ ">") ∧
    (field.repeat_ = IOP_R_DEFVAL →
      (iopc_dump_field_type iopc_is_class buf pkg field flags
          = buf ++ "Option<" ++ basetype_text iopc_is_class pkg field ++ ">"
        ↔ flags &&& DEFVAL_AS_OPT ≠ 0) ∧
      (iopc_dump_field_type iopc_is_class buf pkg field flags
          = buf ++ basetype_text iopc_is_class pkg field
        ↔ ¬ (flags &&& DEFVAL_AS_OPT ≠ 0))) := by
  have hne := sb_wrap_ne buf "Option<" (basetype_text iopc_is_class pkg field)
    ">" (by decide)
  refine ⟨fun h => ?_, fun h => ?_, fun h => ?_, fun h => ?_⟩
  · unfold iopc_dump_field_type
    simp [h, iopc_dump_field_basetype_eq]
  · unfold iopc_dump_field_type
    simp [h, iopc_dump_field_basetype_eq, String.append_assoc]
  · unfold iopc_dump_field_type
    simp [h, iopc_dump_field_basetype_eq, String.append_assoc]
  · by_cases hf : flags &&& DEFVAL_AS_OPT = 0
    · have e : iopc_dump_field_type iopc_is_class buf pkg field flags
          = buf ++ basetype_text iopc_is_class pkg field := by
        unfold iopc_dump_field_type
        simp [h, hf, iopc_dump_field_basetype_eq]
      rw [e]
      exact ⟨⟨fun h1 => absurd h1 hne, fun h1 => absurd hf h1⟩,
        ⟨fun _ => by simp [hf], fun _ => rfl⟩⟩
    · have e : iopc_dump_field_type iopc_is_class buf pkg field flags
          = buf ++ "Option<" ++ basetype_text iopc_is_class pkg field ++ ">" := by
        unfold iopc_dump_field_type
        simp [h, hf, iopc_dump_field_basetype_eq, String.append_assoc]
      rw [e]
      exact ⟨⟨fun _ => hf, fun _ => rfl⟩,
        ⟨fun h1 => absurd h1.symm hne, fun h1 => absurd hf h1⟩⟩

/-- C7 at a sample: a defaulted `i32` field, with `DEFVAL_AS_OPT` set
(flags 1) and not set (flags 2). -/
theorem iopc_dump_field_type_cardinality_witness :
    iopc_dump_field_type sample_is_class "" sample_pkg
        { sample_field with repeat_ := IOP_R_DEFVAL, kind := IOP_T_I32 } 1
      = "Option<i32>" ∧
    iopc_dump_field_type sample_is_class "" sample_pkg
        { sample_field with repeat_ := IOP_R_DEFVAL, kind := IOP_T_I32 } 2
      = "i32" := by
  have h := (iopc_dump_field_type_cardinality sample_is_class "" sample_pkg
    { sample_field with repeat_ := IOP_R_DEFVAL, kind := IOP_T_I32 } 1).2.2.2 rfl
  have h2 := (iopc_dump_field_type_cardinality sample_is_class "" sample_pkg
    { sample_field with repeat_ := IOP_R_DEFVAL, kind := IOP_T_I32 } 2).2.2.2 rfl
  exact ⟨(h.1.2 (by decide)).trans (by decide), (h2.2.2 (by decide)).trans (by decide)⟩

/-- C8 (`iopc_dump_field_basetype`, by-indirection wrap) at the failing
input: for a field of kind `IOP_T_UNION` marked by-indirection (`is_ref`) the
base type expression is the bare name `U`, without `Box<`; the same field
with the kind `IOP_T_STRUCT` gets `Box<U>` (`Box<dyn U>` for a class). -/
theorem iopc_dump_field_basetype_union_ref :
    sample_union_ref.kind = IOP_T_UNION ∧ sample_union_ref.is_ref = true ∧
    iopc_dump_field_basetype iopc_is_class "" sample_pkg sample_union_ref
      = "U" ∧
    iopc_dump_field_basetype iopc_is_class "" sample_pkg
        { sample_union_ref with kind := IOP_T_STRUCT,
                                struct_def_type := STRUCT_TYPE_STRUCT }
      = (if iopc_is_class STRUCT_TYPE_STRUCT then "Box<dyn U>" else "Box<U>") := by
  refine ⟨rfl, rfl, rfl, ?_⟩
  unfold iopc_dump_field_basetype
  cases h : iopc_is_class STRUCT_TYPE_STRUCT <;> simp [h, sample_union_ref] <;> rfl

end externals

/-! ## Imports (C4, C5) -/

@[simp] theorem sb_concat_nil : sb_concat [] = "" := rfl

@[simp] theorem sb_concat_cons (s : String) (l : List String) :
    sb_concat (s :: l) = s ++ sb_concat l := rfl

theorem sb_concat_append (l₁ l₂ : List String) :
    sb_concat (l₁ ++ l₂) = sb_concat l₁ ++ sb_concat l₂ := by
  induction l₁ with
  | nil => simp
  | cons s l ih => simp [ih, String.append_assoc]

theorem iopc_dump_import_loop_cons (dep : iopc_pkg_t)
    (deps : List iopc_pkg_t) (s : sb_t × qh_cstr) :
    iopc_dump_import_loop (dep :: deps) s
      = iopc_dump_import_loop deps (iopc_dump_import s.1 dep s.2) := rfl

theorem iopc_dump_import_loop_eq (deps : List iopc_pkg_t) (buf : sb_t)
    (imported : qh_cstr) :
    (iopc_dump_import_loop deps (buf, imported)).1
      = buf ++ sb_concat ((imports_written imported deps).map import_text) := by
  induction deps generalizing buf imported with
  | nil => simp [iopc_dump_import_loop, imports_written]
  | cons dep deps ih =>
    rw [iopc_dump_import_loop_cons]
    unfold iopc_dump_import imports_written
    by_cases h : pp_under dep.name ∈ imported
    · simp only [h, import_alias, if_true]
      exact ih buf imported
    · simp only [h, import_alias, if_false]
      rw [ih]
      simp [import_text, import_alias, String.append_assoc]

theorem imports_written_eq (imported : qh_cstr) (deps : List iopc_pkg_t) :
    imports_written imported deps
      = (List.range deps.length).filterMap fun i =>
          (deps.get? i).bind fun dep =>
            if import_alias dep ∈ imported
                ∨ import_alias dep ∈ (deps.take i).map import_alias then none
            else some dep := by
  induction deps generalizing imported with
  | nil => simp [imports_written]
  | cons dep deps ih =>
    rw [List.length_cons, List.range_succ_eq_map, List.filterMap_cons,
      List.filterMap_map]
    unfold imports_written
    by_cases h : import_alias dep ∈ imported
    · simp only [h, if_true, List.get?_cons_zero, Option.some_bind, true_or]
      rw [ih]
      apply List.filterMap_congr
      intro i _
      simp only [Function.comp, List.get?_cons_succ, List.take_succ_cons,
        List.map_cons, List.mem_cons]
      cases hd : deps.get? i with
      | none => rfl
      | some e =>
        simp only [Option.some_bind]
        by_cases he : import_alias e = import_alias dep
        · simp [he, h]
        · simp [he]
    · simp only [h, if_false, List.get?_cons_zero, Option.some_bind, false_or,
        List.take_zero, List.map_nil, List.not_mem_nil]
      rw [ih]
      congr 1
      apply List.filterMap_congr
      intro i _
      simp only [Function.comp, List.get?_cons_succ, List.take_succ_cons,
        List.map_cons, List.mem_cons]
      cases hd : deps.get? i with
      | none => rfl
      | some e =>
        simp only [Option.some_bind]
        by_cases he : import_alias e = import_alias dep
        · simp [he]
        · simp [he]

theorem imports_written_nil (deps : List iopc_pkg_t) :
    imports_written [] deps = first_occurrences deps := by
  rw [imports_written_eq]
  simp [first_occurrences]

theorem iopc_dump_imports_eq (buf : sb_t)
    (t_deps t_weak_deps i_deps : List iopc_pkg_t) :
    iopc_dump_imports buf t_deps t_weak_deps i_deps
      = buf ++ sb_concat ((first_occurrences
          (t_deps ++ t_weak_deps ++ i_deps)).map import_text) := by
  have h : iopc_dump_imports buf t_deps t_weak_deps i_deps
      = (iopc_dump_import_loop (t_deps ++ t_weak_deps ++ i_deps) (buf, [])).1 := by
    simp [iopc_dump_imports, iopc_dump_import_loop, List.foldl_append]
  rw [h, iopc_dump_import_loop_eq, imports_written_nil]

theorem imports_written_sublist (imported : qh_cstr) (deps : List iopc_pkg_t) :
    (imports_written imported deps).Sublist deps := by
  induction deps generalizing imported with
  | nil => simp [imports_written]
  | cons dep deps ih =>
    unfold imports_written
    split
    · exact (ih imported).cons dep
    · exact (ih _).cons₂ dep

theorem imports_written_not_mem (imported : qh_cstr) (deps : List iopc_pkg_t) :
    ∀ a ∈ (imports_written imported deps).map import_alias, a ∉ imported := by
  induction deps generalizing imported with
  | nil => simp [imports_written]
  | cons dep deps ih =>
    unfold imports_written
    split
    · exact ih imported
    · rename_i h
      intro a ha
      rw [List.map_cons, List.mem_cons] at ha
      rcases ha with rfl | ha
      · exact h
      · exact fun hm => ih _ a ha (List.mem_cons_of_mem _ hm)

theorem imports_written_nodup (imported : qh_cstr) (deps : List iopc_pkg_t) :
    ((imports_written imported deps).map import_alias).Nodup := by
  induction deps generalizing imported with
  | nil => simp [imports_written]
  | cons dep deps ih =>
    unfold imports_written
    split
    · exact ih imported
    · rw [List.map_cons, List.nodup_cons]
      exact ⟨fun hm => imports_written_not_mem _ deps _ hm (List.mem_cons_self _ _),
        ih _⟩

theorem imports_written_covers (imported : qh_cstr) (deps : List iopc_pkg_t) :
    ∀ dep ∈ deps, import_alias dep ∈ imported
      ∨ import_alias dep ∈ (imports_written imported deps).map import_alias := by
  induction deps generalizing imported with
  | nil => simp
  | cons d deps ih =>
    intro dep hdep
    unfold imports_written
    rw [List.mem_cons] at hdep
    split
    · rename_i h
      rcases hdep with rfl | hdep
      · exact Or.inl h
      · exact ih imported dep hdep
    · rcases hdep with rfl | hdep
      · exact Or.inr (by simp)
      · rcases ih (import_alias d :: imported) dep hdep with h1 | h1
        · rw [List.mem_cons] at h1
          rcases h1 with h1 | h1
          · exact Or.inr (by simp [h1])
          · exact Or.inl h1
        · exact Or.inr (by rw [List.map_cons]; exact List.mem_cons_of_mem _ h1)

/-- C4 (`iopc_dump_imports`, first occurrence wins).  For every triple of
dependency lists the text appended is, in order, the import statements of the
first occurrences of each alias in `direct ++ weak ++ indirect`: no alias is
imported twice, the imported dependencies keep the order of the
concatenation, and every dependency has its alias imported. -/
theorem iopc_dump_imports_first_occurrence (buf : sb_t)
    (t_deps t_weak_deps i_deps : List iopc_pkg_t) :
    iopc_dump_imports buf t_deps t_weak_deps i_deps
      = buf ++ sb_concat ((first_occurrences
          (t_deps ++ t_weak_deps ++ i_deps)).map import_text) ∧
    ((first_occurrences (t_deps ++ t_weak_deps ++ i_deps)).map
      import_alias).Nodup ∧
    (first_occurrences (t_deps ++ t_weak_deps ++ i_deps)).Sublist
      (t_deps ++ t_weak_deps ++ i_deps) ∧
    ∀ dep ∈ t_deps ++ t_weak_deps ++ i_deps,
      import_alias dep ∈ (first_occurrences
        (t_deps ++ t_weak_deps ++ i_deps)).map import_alias := by
  refine ⟨iopc_dump_imports_eq buf t_deps t_weak_deps i_deps, ?_, ?_, ?_⟩
  · rw [← imports_written_nil]
    exact imports_written_nodup _ _
  · rw [← imports_written_nil]
    exact imports_written_sublist _ _
  · intro dep hdep
    rw [← imports_written_nil]
    rcases imports_written_covers [] _ dep hdep with h | h
    · exact absurd h (List.not_mem_nil _)
    · exact h

/-- C4 at a sample: `a.b` is both a direct and an indirect dependency; its
one import stands where the direct list has it. -/
theorem iopc_dump_imports_first_occurrence_example :
    first_occurrences ([sample_dep_c, sample_dep_a_b] ++ [] ++ [sample_dep_a_b])
      = [sample_dep_c, sample_dep_a_b] ∧
    iopc_dump_imports "" [sample_dep_c, sample_dep_a_b] [] [sample_dep_a_b]
      = "import * as c from \"iop/c.iop\";\nimport * as a__b from \"iop/a/b.iop\";\n" :=
  ⟨by decide,
   (iopc_dump_imports_first_occurrence "" [sample_dep_c, sample_dep_a_b] []
      [sample_dep_a_b]).1.trans (by decide)⟩

/-- C5 fails: the packages `a.b` and `a__b` have different lists of
segments, they are two distinct packages, and `iopc_dump_imports` writes
one import statement for the two. -/
theorem iopc_dump_imports_merges_packages :
    sample_dep_a_b.name ≠ sample_dep_a__b.name ∧
    ([sample_dep_a_b, sample_dep_a__b].map (fun dep => dep.name)).dedup.length
      = 2 ∧
    (first_occurrences ([sample_dep_a_b] ++ [] ++ [sample_dep_a__b])).length
      = 1 ∧
    iopc_dump_imports "" [sample_dep_a_b] [] [sample_dep_a__b]
      = "import * as a__b from \"iop/a/b.iop\";\n" := by
  decide

/-- C5 amended (`iopc_dump_imports`, one import per distinct alias).  For
every triple of dependency lists the number of import statements written is
the number of distinct aliases (segments joined by `__`) of the dependencies
of the three lists. -/
theorem iopc_dump_imports_count (buf : sb_t)
    (t_deps t_weak_deps i_deps : List iopc_pkg_t) :
    iopc_dump_imports buf t_deps t_weak_deps i_deps
      = buf ++ sb_concat ((first_occurrences
          (t_deps ++ t_weak_deps ++ i_deps)).map import_text) ∧
    (first_occurrences (t_deps ++ t_weak_deps ++ i_deps)).length
      = ((t_deps ++ t_weak_deps ++ i_deps).map import_alias).dedup.length := by
  refine ⟨iopc_dump_imports_eq buf t_deps t_weak_deps i_deps, ?_⟩
  rw [← imports_written_nil, ← List.length_map _ import_alias]
  apply List.Perm.length_eq
  rw [List.perm_ext_iff_of_nodup (imports_written_nodup _ _) (List.nodup_dedup _)]
  intro a
  rw [List.mem_dedup]
  constructor
  · intro h
    exact ((imports_written_sublist _ _).map import_alias).subset h
  · intro h
    rcases List.mem_map.1 h with ⟨dep, hdep, rfl⟩
    rcases imports_written_covers [] _ dep hdep with h1 | h1
    · exact absurd h1 (List.not_mem_nil _)
    · exact h1

section externals
variable (t_camelcase_to_c : String → String)
variable (iopc_is_class : iopc_struct_type_t → Bool)

/-! ## Structs: the two loops write the same members (C2) -/

theorem field_text_struct_style (pkg : iopc_pkg_t) (field : iopc_field_t) :
    field_text t_camelcase_to_c iopc_is_class pkg field 0
      = name_escape field ++ t_camelcase_to_c field.name ++ ": "
          ++ field_type_text iopc_is_class pkg field 0 := by
  unfold field_text iopc_dump_field name_escape
  have h : (0 : Nat) &&& ENUM_STYLE = 0 := by decide
  simp [-String.reduceAppend, h, iopc_dump_field_type_eq, String.append_assoc]

theorem field_defval_text_eq (pkg : iopc_pkg_t) (field : iopc_field_t)
    (flags : Nat) :
    field_defval_text t_camelcase_to_c pkg field flags
      = name_escape field
          ++ (if flags &&& ENUM_STYLE ≠ 0 then
                t_field_name_to_camelcase field.name ++ "("
              else t_camelcase_to_c field.name ++ ": ")
          ++ defval_literal field
          ++ (if flags &&& ENUM_STYLE ≠ 0 then ")" else "") := by
  unfold field_defval_text iopc_dump_field_defval name_escape defval_literal
  by_cases hr : field.repeat_ = .IOP_R_DEFVAL <;>
    by_cases hf : flags &&& ENUM_STYLE = 0 <;>
    cases hk : field.kind <;>
    simp [-String.reduceAppend, hr, hf, String.append_assoc]

theorem field_defval_text_struct_style (pkg : iopc_pkg_t)
    (field : iopc_field_t) :
    field_defval_text t_camelcase_to_c pkg field 0
      = name_escape field ++ t_camelcase_to_c field.name ++ ": "
          ++ defval_literal field := by
  rw [field_defval_text_eq]
  have h : (0 : Nat) &&& ENUM_STYLE = 0 := by decide
  simp [-String.reduceAppend, h, String.append_assoc]

theorem sb_unit_entry : ": ()," = ": " ++ ("()" ++ ",") := by decide

theorem iopc_dump_dummies_decl_eq (indent : String) (pkg : iopc_pkg_t)
    (tag : Int) (turns : Nat) (buf : sb_t) (next_tag : Int) :
    iopc_dump_dummies indent "    pub " tag turns (buf, next_tag)
      = (buf ++ sb_concat ((dummy_members tag turns next_tag).1.map
            (decl_member_text t_camelcase_to_c iopc_is_class indent pkg)),
         (dummy_members tag turns next_tag).2) := by
  induction turns generalizing buf next_tag with
  | zero => simp [iopc_dump_dummies, dummy_members]
  | succ n ih =>
    unfold iopc_dump_dummies dummy_members
    by_cases h : tag > next_tag
    · simp only [h, if_true]
      rw [ih]
      simp [-String.reduceAppend, decl_member_text, member_name, member_type,
        sb_unit_entry, String.append_assoc]
    · simp [h]

theorem iopc_dump_dummies_defval_eq (indent : String)
    (tag : Int) (turns : Nat) (buf : sb_t) (next_tag : Int) :
    iopc_dump_dummies indent "            " tag turns (buf, next_tag)
      = (buf ++ sb_concat ((dummy_members tag turns next_tag).1.map
            (defval_member_text t_camelcase_to_c indent)),
         (dummy_members tag turns next_tag).2) := by
  induction turns generalizing buf next_tag with
  | zero => simp [iopc_dump_dummies, dummy_members]
  | succ n ih =>
    unfold iopc_dump_dummies dummy_members
    by_cases h : tag > next_tag
    · simp only [h, if_true]
      rw [ih]
      simp [-String.reduceAppend, defval_member_text, member_name,
        member_defval, sb_unit_entry, String.append_assoc]
    · simp [h]

theorem iopc_dump_struct_members_eq (indent : String) (pkg : iopc_pkg_t)
    (fields : List iopc_field_t) (buf : sb_t) (next_tag : Int) :
    (iopc_dump_struct_members t_camelcase_to_c iopc_is_class indent pkg fields
        (buf, next_tag)).1
      = buf ++ sb_concat ((struct_members fields next_tag).map
          (decl_member_text t_camelcase_to_c iopc_is_class indent pkg)) := by
  induction fields generalizing buf next_tag with
  | nil => simp [iopc_dump_struct_members, struct_members]
  | cons field fields ih =>
    unfold iopc_dump_struct_members struct_members
    simp only [iopc_dump_dummies_decl_eq t_camelcase_to_c iopc_is_class indent pkg,
      iopc_dump_field_eq]
    rw [ih]
    simp [-String.reduceAppend, sb_concat_append, decl_member_text,
      member_name, member_type, field_text_struct_style, String.append_assoc]

theorem iopc_dump_struct_defvals_eq (indent : String) (pkg : iopc_pkg_t)
    (fields : List iopc_field_t) (buf : sb_t) (next_tag : Int) :
    (iopc_dump_struct_defvals t_camelcase_to_c indent pkg fields
        (buf, next_tag)).1
      = buf ++ sb_concat ((struct_members fields next_tag).map
          (defval_member_text t_camelcase_to_c indent)) := by
  induction fields generalizing buf next_tag with
  | nil => simp [iopc_dump_struct_defvals, struct_members]
  | cons field fields ih =>
    unfold iopc_dump_struct_defvals struct_members
    simp only [iopc_dump_dummies_defval_eq t_camelcase_to_c indent,
      iopc_dump_field_defval_eq]
    rw [ih]
    simp [-String.reduceAppend, sb_concat_append, defval_member_text,
      member_name, member_defval, field_defval_text_struct_style,
      String.append_assoc]

theorem iopc_dump_struct_eq (buf : sb_t) (indent : String) (pkg : iopc_pkg_t)
    (st : iopc_struct_t) (st_name : Option String) :
    iopc_dump_struct t_camelcase_to_c iopc_is_class buf indent pkg st st_name
      = (buf ++ struct_head iopc_is_class indent (st_name.getD st.name) st
          ++ sb_concat ((struct_members (iopc_struct_sort_fields st).fields 1).map
              (decl_member_text t_camelcase_to_c iopc_is_class indent pkg))
          ++ struct_mid indent (st_name.getD st.name) st
          ++ sb_concat ((struct_members (iopc_struct_sort_fields st).fields 1).map
              (defval_member_text t_camelcase_to_c indent))
          ++ struct_tail iopc_is_class indent (st_name.getD st.name) st,
         iopc_struct_sort_fields st) := by
  have hlen : (iopc_struct_sort_fields st).fields.length = st.fields.length := by
    simp [iopc_struct_sort_fields, List.length_insertionSort]
  have hty : (iopc_struct_sort_fields st).type = st.type := rfl
  have hex : (iopc_struct_sort_fields st).extends_ = st.extends_ := rfl
  have hn : (match st_name with | none => st.name | some n => n)
      = st_name.getD st.name := by cases st_name <;> rfl
  unfold iopc_dump_struct
  simp only [iopc_dump_struct_members_eq, iopc_dump_struct_defvals_eq, hlen, hty,
    hex, hn]
  unfold struct_head struct_mid struct_tail
  cases h1 : iopc_is_class st.type <;> cases h2 : st.extends_ <;>
    simp [-String.reduceAppend, String.append_assoc]

end externals

/-! ## Structs: the member of position `k` stands for tag `k` (C1) -/

theorem dummy_members_eq (tag : Int) (turns : Nat) (next_tag : Int)
    (h : turns = (tag - next_tag).toNat) :
    dummy_members tag turns next_tag
      = ((List.range turns).map (fun (i : Nat) => struct_member_t.dummy (next_tag + (i : Int))),
         max tag next_tag + 1) := by
  induction turns generalizing next_tag with
  | zero =>
    have h1 : max tag next_tag = next_tag := max_eq_right (by omega)
    simp [dummy_members, h1]
  | succ n ih =>
    have h0 : tag > next_tag := by omega
    have h1 : max tag (next_tag + 1) = max tag next_tag := by
      rw [max_eq_left (by omega), max_eq_left (by omega)]
    unfold dummy_members
    rw [if_pos h0, ih (next_tag + 1) (by omega), List.range_succ_eq_map]
    simp only [List.map_cons, List.map_map, h1, Prod.mk.injEq, and_true]
    congr 1
    · congr 1
      simp
    · apply List.map_congr_left
      intro i _
      simp only [Function.comp, Nat.succ_eq_add_one, Nat.cast_add, Nat.cast_one]
      congr 1
      omega

theorem member_at_below (fields : List iopc_field_t) (k : Int)
    (h : ∀ f ∈ fields, k < f.tag) : member_at fields k = .dummy k := by
  have e : fields.find? (fun f => f.tag = k) = none := by
    rw [List.find?_eq_none]
    intro f hf
    have := h f hf
    simp only [decide_eq_true_eq]
    omega
  simp [member_at, e]

theorem member_at_head (field : iopc_field_t) (fields : List iopc_field_t) :
    member_at (field :: fields) field.tag = .real field := by
  simp [member_at]

theorem member_at_tail (field : iopc_field_t) (fields : List iopc_field_t)
    (k : Int) (h : field.tag ≠ k) :
    member_at (field :: fields) k = member_at fields k := by
  simp [member_at, List.find?_cons, h]

theorem foldl_max_tag_ge (fields : List iopc_field_t) (m : Int) :
    m ≤ fields.foldl (fun m f => max m f.tag) m := by
  induction fields generalizing m with
  | nil => simp
  | cons f l ih => exact le_trans (le_max_left m f.tag) (ih _)

theorem struct_members_eq (fields : List iopc_field_t) (next_tag : Int)
    (hsorted : fields.Pairwise (fun f g => f.tag < g.tag))
    (hge : ∀ f ∈ fields, next_tag ≤ f.tag) :
    struct_members fields next_tag
      = (List.range (fields.foldl (fun m f => max m f.tag) (next_tag - 1)
            - next_tag + 1).toNat).map
          (fun (i : Nat) => member_at fields (next_tag + (i : Int))) := by
  induction fields generalizing next_tag with
  | nil => simp [struct_members]
  | cons f l ih =>
    rw [List.pairwise_cons] at hsorted
    have hf : next_tag ≤ f.tag := hge f (List.mem_cons_self _ _)
    have hl : ∀ g ∈ l, f.tag + 1 ≤ g.tag := fun g hg => by
      have := hsorted.1 g hg
      omega
    have hT := foldl_max_tag_ge l f.tag
    have hmax : max (next_tag - 1) f.tag = f.tag := max_eq_right (by omega)
    have hmax2 : max f.tag next_tag = f.tag := max_eq_left hf
    unfold struct_members
    simp only [dummy_members_eq f.tag _ next_tag rfl, List.foldl_cons, hmax, hmax2]
    rw [ih (f.tag + 1) hsorted.2 hl]
    simp only [add_sub_cancel_right]
    have hN : (l.foldl (fun m f => max m f.tag) f.tag - next_tag + 1).toNat
        = (f.tag - next_tag).toNat
          + ((l.foldl (fun m f => max m f.tag) f.tag - (f.tag + 1) + 1).toNat + 1) := by
      omega
    rw [hN, List.range_add, List.map_append, List.range_succ_eq_map]
    congr 1
    · apply List.map_congr_left
      intro i hi
      rw [List.mem_range] at hi
      rw [member_at_below]
      intro g hg
      rw [List.mem_cons] at hg
      rcases hg with rfl | hg
      · omega
      · have := hl g hg
        omega
    · simp only [List.map_cons, List.map_map]
      congr 1
      · have e : next_tag + ((f.tag - next_tag).toNat + 0 : Nat) = f.tag := by omega
        rw [e, member_at_head]
      · apply List.map_congr_left
        intro i _
        simp only [Function.comp, Nat.succ_eq_add_one]
        have e : next_tag + (((f.tag - next_tag).toNat + (i + 1) : Nat) : Int)
            = f.tag + 1 + i := by omega
        rw [e, member_at_tail]
        omega

theorem iopc_struct_sort_fields_perm (st : iopc_struct_t) :
    (iopc_struct_sort_fields st).fields.Perm st.fields :=
  List.perm_insertionSort by_tag st.fields

theorem largest_tag_perm {l₁ l₂ : List iopc_field_t} (h : l₁.Perm l₂) :
    largest_tag l₁ = largest_tag l₂ :=
  List.Perm.foldl_eq h 0

theorem tag_inj_of_sorted {fields : List iopc_field_t}
    (hsorted : fields.Pairwise (fun f g => f.tag < g.tag))
    {f g : iopc_field_t} (hf : f ∈ fields) (hg : g ∈ fields)
    (h : f.tag = g.tag) : f = g := by
  induction fields with
  | nil => exact absurd hf (List.not_mem_nil _)
  | cons a l ih =>
    rw [List.pairwise_cons] at hsorted
    rw [List.mem_cons] at hf hg
    rcases hf with rfl | hf <;> rcases hg with rfl | hg
    · rfl
    · have := hsorted.1 g hg
      omega
    · have := hsorted.1 f hf
      omega
    · exact ih hsorted.2 hf hg

theorem member_at_of_mem {fields : List iopc_field_t}
    (hsorted : fields.Pairwise (fun f g => f.tag < g.tag))
    {f : iopc_field_t} (hf : f ∈ fields) :
    member_at fields f.tag = .real f := by
  unfold member_at
  cases h : fields.find? (fun g => g.tag = f.tag) with
  | none =>
    rw [List.find?_eq_none] at h
    exact absurd (by simp) (h f hf)
  | some g =>
    have h1 := List.find?_some h
    have h2 := List.mem_of_find?_eq_some h
    simp only [decide_eq_true_eq] at h1
    rw [tag_inj_of_sorted hsorted h2 hf h1]

theorem member_at_of_not_mem {fields : List iopc_field_t} {k : Int}
    (h : ∀ f ∈ fields, f.tag ≠ k) : member_at fields k = .dummy k := by
  have e : fields.find? (fun f => f.tag = k) = none := by
    rw [List.find?_eq_none]
    intro f hf
    simpa using h f hf
  simp [member_at, e]

theorem emitted_members_eq (st : iopc_struct_t)
    (hsorted : (iopc_struct_sort_fields st).fields.Pairwise
      (fun f g => f.tag < g.tag))
    (hpos : ∀ f ∈ st.fields, 1 ≤ f.tag) :
    emitted_members st
      = (List.range (largest_tag st.fields).toNat).map
          (fun (i : Nat) =>
            member_at (iopc_struct_sort_fields st).fields (1 + (i : Int))) := by
  have hp := iopc_struct_sort_fields_perm st
  unfold emitted_members
  rw [struct_members_eq _ 1 hsorted (fun f hf => hpos f (hp.mem_iff.1 hf))]
  have e : List.foldl (fun m f => max m f.tag) (1 - 1)
      (iopc_struct_sort_fields st).fields = largest_tag st.fields := by
    rw [← largest_tag_perm hp]
    rfl
  rw [e]
  simp

section externals
variable (t_camelcase_to_c : String → String)
variable (iopc_is_class : iopc_struct_type_t → Bool)

/-- C1 (`iopc_dump_struct`, tag-position invariant).  For every struct whose
tags, once sorted, are strictly increasing and all at least 1, the
declaration written has `T` members, `T` the largest tag (0 without field),
and for every `k` from 1 to `T` the `k`-th member is the field of tag `k`
when the struct has one and the placeholder `_dummy<k>` of type `()`
otherwise. -/
theorem iopc_dump_struct_tag_position (buf : sb_t) (indent : String)
    (pkg : iopc_pkg_t) (st : iopc_struct_t) (st_name : Option String)
    (hsorted : (iopc_struct_sort_fields st).fields.Pairwise
      (fun f g => f.tag < g.tag))
    (hpos : ∀ f ∈ st.fields, 1 ≤ f.tag) :
    (iopc_dump_struct t_camelcase_to_c iopc_is_class buf indent pkg st
        st_name).1
      = buf ++ struct_head iopc_is_class indent (st_name.getD st.name) st
          ++ sb_concat ((emitted_members st).map
              (decl_member_text t_camelcase_to_c iopc_is_class indent pkg))
          ++ struct_mid indent (st_name.getD st.name) st
          ++ sb_concat ((emitted_members st).map
              (defval_member_text t_camelcase_to_c indent))
          ++ struct_tail iopc_is_class indent (st_name.getD st.name) st ∧
    ((emitted_members st).length : Int) = largest_tag st.fields ∧
    (∀ k : Int, 1 ≤ k → k ≤ largest_tag st.fields →
      (∀ f ∈ st.fields, f.tag = k →
        (emitted_members st).get? (k - 1).toNat = some (.real f)) ∧
      ((∀ f ∈ st.fields, f.tag ≠ k) →
        (emitted_members st).get? (k - 1).toNat = some (.dummy k))) ∧
    (∀ k : Int,
      decl_member_text t_camelcase_to_c iopc_is_class indent pkg (.dummy k)
        = "\n" ++ indent ++ "    pub _dummy" ++ toString k ++ ": (),") ∧
    (∀ f : iopc_field_t,
      decl_member_text t_camelcase_to_c iopc_is_class indent pkg (.real f)
        = "\n" ++ indent ++ "    pub "
            ++ iopc_dump_field t_camelcase_to_c iopc_is_class "" pkg f 0
            ++ ",") := by
  have hp := iopc_struct_sort_fields_perm st
  have hT : 0 ≤ largest_tag st.fields := foldl_max_tag_ge st.fields 0
  have hm := emitted_members_eq st hsorted hpos
  refine ⟨?_, ?_, ?_, ?_, ?_⟩
  · rw [iopc_dump_struct_eq]
    rfl
  · rw [hm, List.length_map, List.length_range]
    omega
  · intro k hk1 hk2
    have hidx : (emitted_members st).get? (k - 1).toNat
        = some (member_at (iopc_struct_sort_fields st).fields k) := by
      rw [hm, List.get?_eq_getElem?, List.getElem?_map,
        List.getElem?_range (by omega)]
      simp only [Option.map_some']
      congr 2
      omega
    constructor
    · intro f hf hfk
      rw [hidx, ← hfk, member_at_of_mem hsorted (hp.mem_iff.2 hf)]
    · intro hno
      rw [hidx, member_at_of_not_mem (fun f hf => hno f (hp.mem_iff.1 hf))]
  · intro k
    have e : "    pub _dummy" = "    pub " ++ "_dummy" := by decide
    simp [-String.reduceAppend, decl_member_text, member_name, member_type,
      sb_unit_entry, e, String.append_assoc]
  · intro f
    have : iopc_dump_field t_camelcase_to_c iopc_is_class "" pkg f 0
        = field_text t_camelcase_to_c iopc_is_class pkg f 0 := rfl
    rw [this, field_text_struct_style]
    simp [-String.reduceAppend, decl_member_text, member_name, member_type,
      String.append_assoc]

/-- C1 at a sample: the fields of tags 4, 1, 2 give four members, the third
is `_dummy3: ()`. -/
theorem iopc_dump_struct_tag_position_witness :
    (emitted_members sample_struct_124).length = 4 ∧
    (emitted_members sample_struct_124).get? 2 = some (.dummy 3) ∧
    decl_member_text sample_camelcase_to_c sample_is_class "" sample_pkg
        (.dummy 3) = "\n    pub _dummy3: ()," ∧
    (iopc_dump_struct sample_camelcase_to_c sample_is_class "" ""
        sample_pkg sample_struct_124 none).1
      = "#[derive(Clone, Serialize, Deserialize)]\npub struct S \x7b\n    pub a: i32,\n    pub b: i32,\n    pub _dummy3: (),\n    pub d: i32,\n\x7d\nimpl Default for S \x7b\n    fn default() -> Self \x7b\n        Self \x7b\n            a: Default::default(),\n            b: Default::default(),\n            _dummy3: (),\n            d: Default::default(),\n        \x7d\n    \x7d\n\x7d\n" := by
  have h := iopc_dump_struct_tag_position sample_camelcase_to_c
    sample_is_class "" "" sample_pkg sample_struct_124 none (by decide)
    (by decide)
  refine ⟨?_, (h.2.2.1 3 (by decide) (by decide)).2 (by decide),
    (h.2.2.2.1 3).trans (by decide), by decide⟩
  have h1 := h.2.1
  have h2 : largest_tag sample_struct_124.fields = 4 := by decide
  rw [h2] at h1
  exact_mod_cast h1

/-- C2 (`iopc_dump_struct`, declaration/constructor agreement).  For every
struct, whatever its tags, the lines of the declaration and the lines of the
`Self` expression of the default constructor are written for the same list of
members: the names are the same, in the same order, placeholders included,
and the value of a placeholder in the constructor is `()`. -/
theorem iopc_dump_struct_constructor_agrees (buf : sb_t) (indent : String)
    (pkg : iopc_pkg_t) (st : iopc_struct_t) (st_name : Option String) :
    (iopc_dump_struct t_camelcase_to_c iopc_is_class buf indent pkg st
        st_name).1
      = buf ++ struct_head iopc_is_class indent (st_name.getD st.name) st
          ++ sb_concat ((emitted_members st).map (fun m =>
              "\n" ++ indent ++ "    pub " ++ member_name t_camelcase_to_c m
                ++ ": " ++ member_type iopc_is_class pkg m ++ ","))
          ++ struct_mid indent (st_name.getD st.name) st
          ++ sb_concat ((emitted_members st).map (fun m =>
              "\n" ++ indent ++ "            "
                ++ member_name t_camelcase_to_c m ++ ": " ++ member_defval m
                ++ ","))
          ++ struct_tail iopc_is_class indent (st_name.getD st.name) st ∧
    (∀ k : Int, member_name t_camelcase_to_c (.dummy k)
        = "_dummy" ++ toString k ∧ member_defval (.dummy k) = "()") ∧
    (∀ f : iopc_field_t,
      iopc_dump_field t_camelcase_to_c iopc_is_class "" pkg f 0
        = member_name t_camelcase_to_c (.real f) ++ ": "
            ++ member_type iopc_is_class pkg (.real f) ∧
      iopc_dump_field_defval t_camelcase_to_c "" pkg f 0
        = member_name t_camelcase_to_c (.real f) ++ ": "
            ++ member_defval (.real f)) := by
  refine ⟨?_, fun k => ⟨rfl, rfl⟩, fun f => ⟨?_, ?_⟩⟩
  · rw [iopc_dump_struct_eq]
    rfl
  · exact field_text_struct_style t_camelcase_to_c iopc_is_class pkg f
  · exact field_defval_text_struct_style t_camelcase_to_c pkg f

/-- C2 at a sample: the names of the members of the struct with tags 4, 1
and 2, and the text written for it. -/
theorem iopc_dump_struct_constructor_agrees_example :
    (emitted_members sample_struct_124).map
        (member_name sample_camelcase_to_c)
      = ["a", "b", "_dummy3", "d"] ∧
    (iopc_dump_struct sample_camelcase_to_c sample_is_class "" ""
        sample_pkg sample_struct_124 none).1
      = "#[derive(Clone, Serialize, Deserialize)]\npub struct S \x7b\n    pub a: i32,\n    pub b: i32,\n    pub _dummy3: (),\n    pub d: i32,\n\x7d\nimpl Default for S \x7b\n    fn default() -> Self \x7b\n        Self \x7b\n            a: Default::default(),\n            b: Default::default(),\n            _dummy3: (),\n            d: Default::default(),\n        \x7d\n    \x7d\n\x7d\n" :=
  ⟨by decide,
   (iopc_dump_struct_constructor_agrees sample_camelcase_to_c sample_is_class
      "" "" sample_pkg sample_struct_124 none).1.trans (by decide)⟩

end externals

/-! ## Unions (C3) -/

theorem iopc_struct_sort_fields_sorted (st : iopc_struct_t) :
    (iopc_struct_sort_fields st).fields.Sorted by_tag :=
  List.sorted_insertionSort by_tag st.fields

theorem iopc_struct_sort_fields_idem (st : iopc_struct_t) :
    iopc_struct_sort_fields (iopc_struct_sort_fields st)
      = iopc_struct_sort_fields st := by
  have h := (iopc_struct_sort_fields_sorted st).insertionSort_eq
  unfold iopc_struct_sort_fields at h ⊢
  simp only [h]

theorem iopc_struct_sort_fields_head_le (st : iopc_struct_t)
    (first : iopc_field_t)
    (h : (iopc_struct_sort_fields st).fields.head? = some first) :
    first ∈ st.fields ∧ ∀ f ∈ st.fields, first.tag ≤ f.tag := by
  have hp := iopc_struct_sort_fields_perm st
  have hs := iopc_struct_sort_fields_sorted st
  cases hl : (iopc_struct_sort_fields st).fields with
  | nil => rw [hl] at h; exact absurd h (by simp)
  | cons a l =>
    rw [hl] at h hs
    simp only [List.head?_cons, Option.some.injEq] at h
    subst h
    have hmem : ∀ f, f ∈ st.fields ↔ f ∈ a :: l := fun f => by
      rw [← hl]; exact hp.mem_iff.symm
    refine ⟨(hmem a).2 (List.mem_cons_self _ _), fun f hf => ?_⟩
    rcases List.mem_cons.1 ((hmem f).1 hf) with rfl | hfl
    · exact le_refl _
    · exact (List.pairwise_cons.1 hs).1 f hfl

section externals
variable (t_camelcase_to_c : String → String)
variable (iopc_is_class : iopc_struct_type_t → Bool)

theorem iopc_dump_union_variants_eq (indent : String) (pkg : iopc_pkg_t)
    (fields : List iopc_field_t) (buf : sb_t) :
    iopc_dump_union_variants t_camelcase_to_c iopc_is_class indent pkg fields
        buf
      = buf ++ sb_concat (fields.map (fun f =>
          "\n" ++ indent ++ "    "
            ++ field_text t_camelcase_to_c iopc_is_class pkg f ENUM_STYLE
            ++ ",")) := by
  induction fields generalizing buf with
  | nil => simp [iopc_dump_union_variants]
  | cons field fields ih =>
    unfold iopc_dump_union_variants
    simp only [iopc_dump_field_eq]
    rw [ih]
    simp [-String.reduceAppend, String.append_assoc]

theorem iopc_dump_union_eq (buf : sb_t) (indent : String) (pkg : iopc_pkg_t)
    (st : iopc_struct_t) (st_name : Option String) :
    iopc_dump_union t_camelcase_to_c iopc_is_class buf indent pkg st st_name
      = (buf ++ union_decl_text t_camelcase_to_c iopc_is_class indent pkg
            (st_name.getD st.name) (iopc_struct_sort_fields st).fields
          ++ (match (iopc_struct_sort_fields st).fields with
              | [] => ""
              | first :: _ =>
                union_default_text indent (st_name.getD st.name)
                  (field_defval_text t_camelcase_to_c pkg first ENUM_STYLE)),
         iopc_struct_sort_fields st) := by
  have hn : (match st_name with | none => st.name | some n => n)
      = st_name.getD st.name := by cases st_name <;> rfl
  unfold iopc_dump_union
  simp only [iopc_dump_union_variants_eq, iopc_dump_field_defval_eq, hn]
  unfold union_decl_text union_default_text
  cases h : (iopc_struct_sort_fields st).fields <;>
    simp [-String.reduceAppend, String.append_assoc]

/-- C3 fails: the union `U` is declared as `b` (tag 2), then `a` (tag 1);
the field declared first is `b`, and the `impl Default` written selects the
variant `A`, not `B`. -/
theorem iopc_dump_union_default_not_first_declared :
    sample_union_b_a.fields.head? = some (sample_i32 "b" 2) ∧
    (iopc_dump_union sample_camelcase_to_c sample_is_class "" ""
        sample_pkg sample_union_b_a none).1
      = "#[derive(Clone, Serialize, Deserialize)]\npub enum U \x7b\n    A(i32),\n    B(i32),\n\x7d\nimpl Default for U \x7b\n    fn default() -> Self \x7b\n        U::A(Default::default())\n    \x7d\n\x7d\n" ∧
    (iopc_dump_union sample_camelcase_to_c sample_is_class "" ""
        sample_pkg sample_union_b_a none).1
      ≠ "#[derive(Clone, Serialize, Deserialize)]\npub enum U \x7b\n    A(i32),\n    B(i32),\n\x7d\nimpl Default for U \x7b\n    fn default() -> Self \x7b\n        U::B(Default::default())\n    \x7d\n\x7d\n" := by
  decide

/-- C3 amended (`iopc_dump_union`, default variant).  For every union with
at least one field, the `impl Default` written selects the variant of the
first field of the list sorted by tag, which is a field of the union with the
smallest tag: the text is the declaration followed by the block whose body
is `<name>::<Variant>(<default value>)` for that field. -/
theorem iopc_dump_union_default_smallest_tag (buf : sb_t) (indent : String)
    (pkg : iopc_pkg_t) (st : iopc_struct_t) (st_name : Option String)
    (hne : st.fields ≠ []) :
    ∃ first ∈ st.fields,
      (∀ f ∈ st.fields, first.tag ≤ f.tag) ∧
      (iopc_struct_sort_fields st).fields.head? = some first ∧
      (iopc_dump_union t_camelcase_to_c iopc_is_class buf indent pkg st
          st_name).1
        = buf ++ union_decl_text t_camelcase_to_c iopc_is_class indent pkg
              (st_name.getD st.name) (iopc_struct_sort_fields st).fields
            ++ indent ++ "impl Default for " ++ st_name.getD st.name
            ++ " \x7b\n" ++ indent ++ "    fn default() -> Self \x7b\n"
            ++ indent ++ "        " ++ st_name.getD st.name ++ "::"
            ++ (name_escape first ++ t_field_name_to_camelcase first.name
                ++ "(" ++ defval_literal first ++ ")")
            ++ "\n" ++ indent ++ "    \x7d\n" ++ indent ++ "\x7d\n" := by
  have hp := iopc_struct_sort_fields_perm st
  cases hl : (iopc_struct_sort_fields st).fields with
  | nil =>
    rw [hl] at hp
    exact absurd (List.Perm.nil_eq hp).symm hne
  | cons first l =>
    have hh : (iopc_struct_sort_fields st).fields.head? = some first := by
      rw [hl]; rfl
    have hmin := iopc_struct_sort_fields_head_le st first hh
    refine ⟨first, hmin.1, hmin.2, by rw [← hl, hh], ?_⟩
    rw [iopc_dump_union_eq, hl]
    have hf : ENUM_STYLE ≠ 0 := by decide
    simp [-String.reduceAppend, hf, union_default_text, field_defval_text_eq,
      String.append_assoc]

/-- C3 amended at a sample: for the union declared as `b` (tag 2), `a`
(tag 1), the field selected is `a`, of tag 1. -/
theorem iopc_dump_union_default_smallest_tag_witness :
    sample_union_b_a.fields ≠ [] ∧
    ∃ first ∈ sample_union_b_a.fields,
      first = sample_i32 "a" 1 ∧
      (∀ f ∈ sample_union_b_a.fields, first.tag ≤ f.tag) ∧
      (iopc_dump_union sample_camelcase_to_c sample_is_class "" ""
          sample_pkg sample_union_b_a none).1
        = "#[derive(Clone, Serialize, Deserialize)]\npub enum U \x7b\n    A(i32),\n    B(i32),\n\x7d\nimpl Default for U \x7b\n    fn default() -> Self \x7b\n        U::A(Default::default())\n    \x7d\n\x7d\n" := by
  obtain ⟨first, hmem, hmin, hhead, _⟩ :=
    iopc_dump_union_default_smallest_tag sample_camelcase_to_c
      sample_is_class "" "" sample_pkg sample_union_b_a none (by decide)
  have h : (iopc_struct_sort_fields sample_union_b_a).fields.head?
      = some (sample_i32 "a" 1) := by decide
  rw [h] at hhead
  exact ⟨by decide, first, hmem, (Option.some.inj hhead).symm, hmin,
    by decide⟩

end externals

/-! ## The text and the state an emission leaves -/

theorem iopc_dump_package_member_addr {pkg₁ pkg₂ : iopc_pkg_t}
    (h : pkg₁.addr = pkg₂.addr) (buf : sb_t) (member_pkg : Nat)
    (member_path : iopc_path_t) (member_name : String) :
    iopc_dump_package_member buf pkg₁ member_pkg member_path member_name
      = iopc_dump_package_member buf pkg₂ member_pkg member_path
          member_name := by
  unfold iopc_dump_package_member
  rw [h]

section externals
variable (t_camelcase_to_c : String → String)
variable (iopc_is_class : iopc_struct_type_t → Bool)

theorem basetype_text_addr {pkg₁ pkg₂ : iopc_pkg_t}
    (h : pkg₁.addr = pkg₂.addr) (field : iopc_field_t) :
    basetype_text iopc_is_class pkg₁ field
      = basetype_text iopc_is_class pkg₂ field := by
  unfold basetype_text iopc_dump_field_basetype
  simp only [iopc_dump_package_member_addr h]

theorem field_type_text_addr {pkg₁ pkg₂ : iopc_pkg_t}
    (h : pkg₁.addr = pkg₂.addr) (field : iopc_field_t) (flags : Nat) :
    field_type_text iopc_is_class pkg₁ field flags
      = field_type_text iopc_is_class pkg₂ field flags := by
  unfold field_type_text iopc_dump_field_type
  simp only [iopc_dump_field_basetype_eq, basetype_text_addr iopc_is_class h]

theorem field_text_addr {pkg₁ pkg₂ : iopc_pkg_t}
    (h : pkg₁.addr = pkg₂.addr) (field : iopc_field_t) (flags : Nat) :
    field_text t_camelcase_to_c iopc_is_class pkg₁ field flags
      = field_text t_camelcase_to_c iopc_is_class pkg₂ field flags := by
  unfold field_text iopc_dump_field
  simp only [iopc_dump_field_type_eq, field_type_text_addr iopc_is_class h]

theorem field_defval_text_addr (pkg₁ pkg₂ : iopc_pkg_t)
    (field : iopc_field_t) (flags : Nat) :
    field_defval_text t_camelcase_to_c pkg₁ field flags
      = field_defval_text t_camelcase_to_c pkg₂ field flags := rfl

theorem struct_text_addr {pkg₁ pkg₂ : iopc_pkg_t}
    (h : pkg₁.addr = pkg₂.addr) (indent : String) (st : iopc_struct_t)
    (st_name : Option String) :
    struct_text t_camelcase_to_c iopc_is_class indent pkg₁ st st_name
      = struct_text t_camelcase_to_c iopc_is_class indent pkg₂ st st_name := by
  have e : decl_member_text t_camelcase_to_c iopc_is_class indent pkg₁
      = decl_member_text t_camelcase_to_c iopc_is_class indent pkg₂ := by
    funext m
    cases m with
    | dummy k => rfl
    | real f =>
      simp only [decl_member_text, member_type,
        field_type_text_addr iopc_is_class h]
  unfold struct_text
  rw [e]

theorem union_text_addr {pkg₁ pkg₂ : iopc_pkg_t}
    (h : pkg₁.addr = pkg₂.addr) (indent : String) (st : iopc_struct_t)
    (st_name : Option String) :
    union_text t_camelcase_to_c iopc_is_class indent pkg₁ st st_name
      = union_text t_camelcase_to_c iopc_is_class indent pkg₂ st st_name := by
  unfold union_text union_decl_text
  simp only [field_text_addr t_camelcase_to_c iopc_is_class h,
    field_defval_text_addr t_camelcase_to_c pkg₁ pkg₂]

theorem struct_text_sorted (indent : String) (pkg : iopc_pkg_t)
    (st : iopc_struct_t) (st_name : Option String) :
    struct_text t_camelcase_to_c iopc_is_class indent pkg
        (iopc_struct_sort_fields st) st_name
      = struct_text t_camelcase_to_c iopc_is_class indent pkg st st_name := by
  have hlen : (iopc_struct_sort_fields st).fields.length = st.fields.length := by
    simp [iopc_struct_sort_fields, List.length_insertionSort]
  unfold struct_text emitted_members struct_head struct_mid struct_tail
  rw [iopc_struct_sort_fields_idem, hlen]
  rfl

theorem union_text_sorted (indent : String) (pkg : iopc_pkg_t)
    (st : iopc_struct_t) (st_name : Option String) :
    union_text t_camelcase_to_c iopc_is_class indent pkg
        (iopc_struct_sort_fields st) st_name
      = union_text t_camelcase_to_c iopc_is_class indent pkg st st_name := by
  unfold union_text
  rw [iopc_struct_sort_fields_idem]
  rfl

theorem iopc_dump_struct_text (buf : sb_t) (indent : String)
    (pkg : iopc_pkg_t) (st : iopc_struct_t) (st_name : Option String) :
    iopc_dump_struct t_camelcase_to_c iopc_is_class buf indent pkg st st_name
      = (buf ++ struct_text t_camelcase_to_c iopc_is_class indent pkg st
            st_name,
         iopc_struct_sort_fields st) := by
  rw [iopc_dump_struct_eq]
  simp [struct_text, emitted_members, String.append_assoc]

theorem iopc_dump_union_text (buf : sb_t) (indent : String)
    (pkg : iopc_pkg_t) (st : iopc_struct_t) (st_name : Option String) :
    iopc_dump_union t_camelcase_to_c iopc_is_class buf indent pkg st st_name
      = (buf ++ union_text t_camelcase_to_c iopc_is_class indent pkg st
            st_name,
         iopc_struct_sort_fields st) := by
  rw [iopc_dump_union_eq]
  simp [union_text, String.append_assoc]

theorem iopc_dump_structs_loop_eq (pkg : iopc_pkg_t)
    (sts : List iopc_struct_t) (buf : sb_t) :
    iopc_dump_structs_loop t_camelcase_to_c iopc_is_class pkg sts buf
      = (buf ++ sb_concat (sts.map
            (struct_entry_text t_camelcase_to_c iopc_is_class pkg)),
         sts.map struct_after) := by
  induction sts generalizing buf with
  | nil => simp [iopc_dump_structs_loop]
  | cons st sts ih =>
    unfold iopc_dump_structs_loop
    simp only [iopc_dump_struct_text, iopc_dump_union_text, ih]
    cases h : st.type <;>
      simp [struct_entry_text, struct_after, h, String.append_assoc]

theorem struct_after_idem (st : iopc_struct_t) :
    struct_after (struct_after st) = struct_after st := by
  have ht : (iopc_struct_sort_fields st).type = st.type := rfl
  unfold struct_after
  cases h : st.type <;> simp [h, ht, iopc_struct_sort_fields_idem]

theorem struct_entry_text_after {pkg₁ pkg₂ : iopc_pkg_t}
    (h : pkg₁.addr = pkg₂.addr) (st : iopc_struct_t) :
    struct_entry_text t_camelcase_to_c iopc_is_class pkg₁ (struct_after st)
      = struct_entry_text t_camelcase_to_c iopc_is_class pkg₂ st := by
  have ht : (iopc_struct_sort_fields st).type = st.type := rfl
  unfold struct_entry_text struct_after
  cases hty : st.type <;>
    simp [hty, ht, struct_text_sorted, union_text_sorted,
      struct_text_addr t_camelcase_to_c iopc_is_class h,
      union_text_addr t_camelcase_to_c iopc_is_class h]

theorem iopc_dump_rpc_payload_eq (buf : sb_t) (pkg : iopc_pkg_t)
    (name role : String) (st : Option iopc_struct_t) (is_anonymous : Bool)
    (f : iopc_field_t) :
    iopc_dump_rpc_payload t_camelcase_to_c iopc_is_class buf pkg name role st
        is_anonymous f
      = (buf ++ payload_text t_camelcase_to_c iopc_is_class pkg name role st
            is_anonymous f,
         payload_after st is_anonymous) := by
  unfold iopc_dump_rpc_payload payload_text payload_after
  cases st with
  | none => simp [-String.reduceAppend, String.append_assoc]
  | some st =>
    cases is_anonymous <;>
      simp [-String.reduceAppend, iopc_dump_struct_text,
        iopc_dump_field_basetype_eq, String.append_assoc]

theorem payload_text_after {pkg₁ pkg₂ : iopc_pkg_t}
    (h : pkg₁.addr = pkg₂.addr) (name role : String)
    (st : Option iopc_struct_t) (is_anonymous : Bool) (f : iopc_field_t) :
    payload_text t_camelcase_to_c iopc_is_class pkg₁ name role
        (payload_after st is_anonymous) is_anonymous f
      = payload_text t_camelcase_to_c iopc_is_class pkg₂ name role st
          is_anonymous f := by
  unfold payload_text payload_after
  cases st with
  | none => rfl
  | some st =>
    cases is_anonymous <;>
      simp [struct_text_sorted,
        struct_text_addr t_camelcase_to_c iopc_is_class h,
        basetype_text_addr iopc_is_class h]

theorem payload_after_idem (st : Option iopc_struct_t) (is_anonymous : Bool) :
    payload_after (payload_after st is_anonymous) is_anonymous
      = payload_after st is_anonymous := by
  unfold payload_after
  cases st with
  | none => rfl
  | some st => cases is_anonymous <;> simp [iopc_struct_sort_fields_idem]

theorem iopc_dump_rpc_eq (buf : sb_t) (pkg : iopc_pkg_t) (rpc : iopc_fun_t) :
    iopc_dump_rpc t_camelcase_to_c iopc_is_class buf pkg rpc
      = (buf ++ rpc_text t_camelcase_to_c iopc_is_class pkg rpc,
         rpc_after rpc) := by
  unfold iopc_dump_rpc rpc_text rpc_descriptor_text rpc_after
  simp only [iopc_dump_rpc_payload_eq]
  simp [-String.reduceAppend, String.append_assoc]

theorem rpc_text_after {pkg₁ pkg₂ : iopc_pkg_t}
    (h : pkg₁.addr = pkg₂.addr) (rpc : iopc_fun_t) :
    rpc_text t_camelcase_to_c iopc_is_class pkg₁ (rpc_after rpc)
      = rpc_text t_camelcase_to_c iopc_is_class pkg₂ rpc := by
  unfold rpc_text rpc_after rpc_descriptor_text
  simp only [payload_text_after t_camelcase_to_c iopc_is_class h]

theorem rpc_after_idem (rpc : iopc_fun_t) :
    rpc_after (rpc_after rpc) = rpc_after rpc := by
  unfold rpc_after
  simp only [payload_after_idem]

theorem iopc_dump_iface_funs_eq (pkg : iopc_pkg_t) (rpcs : List iopc_fun_t)
    (buf : sb_t) (first : Bool) :
    iopc_dump_iface_funs t_camelcase_to_c iopc_is_class pkg rpcs (buf, first)
      = (buf ++ funs_text t_camelcase_to_c iopc_is_class pkg rpcs first,
         rpcs.map rpc_after) := by
  induction rpcs generalizing buf first with
  | nil => simp [iopc_dump_iface_funs, funs_text]
  | cons rpc rpcs ih =>
    rw [iopc_dump_iface_funs, funs_text]
    simp only [iopc_dump_rpc_eq, ih]
    cases first <;> simp [String.append_assoc]

theorem funs_text_after {pkg₁ pkg₂ : iopc_pkg_t}
    (h : pkg₁.addr = pkg₂.addr) (rpcs : List iopc_fun_t) (first : Bool) :
    funs_text t_camelcase_to_c iopc_is_class pkg₁ (rpcs.map rpc_after) first
      = funs_text t_camelcase_to_c iopc_is_class pkg₂ rpcs first := by
  induction rpcs generalizing first with
  | nil => rfl
  | cons rpc rpcs ih =>
    simp only [List.map_cons, funs_text, ih,
      rpc_text_after t_camelcase_to_c iopc_is_class h]

theorem iopc_dump_iface_eq (buf : sb_t) (pkg : iopc_pkg_t)
    (iface : iopc_iface_t) :
    iopc_dump_iface t_camelcase_to_c iopc_is_class buf pkg iface
      = (buf ++ iface_text t_camelcase_to_c iopc_is_class pkg iface,
         { iface with funs := iface.funs.map rpc_after }) := by
  unfold iopc_dump_iface iface_text
  simp only [iopc_dump_iface_funs_eq]
  simp [-String.reduceAppend, String.append_assoc]

theorem iopc_dump_ifaces_loop_eq (pkg : iopc_pkg_t)
    (ifaces : List iopc_iface_t) (buf : sb_t) (first : Bool) :
    iopc_dump_ifaces_loop t_camelcase_to_c iopc_is_class pkg ifaces
        (buf, first)
      = (buf ++ ifaces_text t_camelcase_to_c iopc_is_class pkg ifaces first,
         ifaces.map iface_after) := by
  induction ifaces generalizing buf first with
  | nil => simp [iopc_dump_ifaces_loop, ifaces_text]
  | cons iface ifaces ih =>
    unfold iopc_dump_ifaces_loop ifaces_text
    cases hty : iface.type
    · simp only [iopc_dump_iface_eq, ih]
      cases first <;> simp [iface_after, hty, String.append_assoc]
    · simp only [ih]
      simp [iface_after, hty]

theorem iface_after_idem (iface : iopc_iface_t) :
    iface_after (iface_after iface) = iface_after iface := by
  unfold iface_after
  cases hty : iface.type <;> simp [hty, rpc_after_idem]

theorem ifaces_text_after {pkg₁ pkg₂ : iopc_pkg_t}
    (h : pkg₁.addr = pkg₂.addr) (ifaces : List iopc_iface_t) (first : Bool) :
    ifaces_text t_camelcase_to_c iopc_is_class pkg₁ (ifaces.map iface_after)
        first
      = ifaces_text t_camelcase_to_c iopc_is_class pkg₂ ifaces first := by
  induction ifaces generalizing first with
  | nil => rfl
  | cons iface ifaces ih =>
    have e : iface_text t_camelcase_to_c iopc_is_class pkg₁
          { iface with funs := iface.funs.map rpc_after }
        = iface_text t_camelcase_to_c iopc_is_class pkg₂ iface := by
      unfold iface_text
      simp only [funs_text_after t_camelcase_to_c iopc_is_class h]
    cases hty : iface.type
    · have e2 : iface_text t_camelcase_to_c iopc_is_class pkg₁
            (iface_after iface)
          = iface_text t_camelcase_to_c iopc_is_class pkg₂ iface := by
        rw [← e]
        simp only [iface_after, hty]
      have ht : (iface_after iface).type = .IFACE_TYPE_IFACE := by
        simp only [iface_after, hty]
      simp only [List.map_cons, ifaces_text, ht, hty, ih, e2]
    · have ht : iface_after iface = iface := by
        simp only [iface_after, hty]
      simp only [List.map_cons, ifaces_text, ht, hty, ih]

theorem ifaces_text_addr {pkg₁ pkg₂ : iopc_pkg_t}
    (h : pkg₁.addr = pkg₂.addr) (ifaces : List iopc_iface_t) (first : Bool) :
    ifaces_text t_camelcase_to_c iopc_is_class pkg₁ ifaces first
      = ifaces_text t_camelcase_to_c iopc_is_class pkg₂ ifaces first := by
  have e1 : ∀ (name role : String) (st : Option iopc_struct_t) (a : Bool)
      (f : iopc_field_t),
      payload_text t_camelcase_to_c iopc_is_class pkg₁ name role st a f
        = payload_text t_camelcase_to_c iopc_is_class pkg₂ name role st a f := by
    intro name role st a f
    unfold payload_text
    simp only [struct_text_addr t_camelcase_to_c iopc_is_class h,
      basetype_text_addr iopc_is_class h]
  have e2 : ∀ (rpcs : List iopc_fun_t) (first : Bool),
      funs_text t_camelcase_to_c iopc_is_class pkg₁ rpcs first
        = funs_text t_camelcase_to_c iopc_is_class pkg₂ rpcs first := by
    intro rpcs
    induction rpcs with
    | nil => intro _; rfl
    | cons rpc rpcs ih =>
      intro first
      simp only [funs_text, rpc_text, e1, ih]
  induction ifaces generalizing first with
  | nil => rfl
  | cons iface ifaces ih =>
    cases hty : iface.type <;>
      simp only [ifaces_text, iface_text, hty, ih, e2]

theorem iopc_do_rust_eq (pkg : iopc_pkg_t)
    (t_deps t_weak_deps i_deps : List iopc_pkg_t) :
    iopc_do_rust t_camelcase_to_c iopc_is_class pkg t_deps t_weak_deps i_deps
      = (pkg_text t_camelcase_to_c iopc_is_class pkg t_deps t_weak_deps
            i_deps,
         pkg_after pkg) := by
  have hi : ∀ (l : List iopc_iface_t) (b : Bool),
      ifaces_text t_camelcase_to_c iopc_is_class
          { pkg with structs := pkg.structs.map struct_after } l b
        = ifaces_text t_camelcase_to_c iopc_is_class pkg l b :=
    fun l b => @ifaces_text_addr t_camelcase_to_c iopc_is_class
      { pkg with structs := pkg.structs.map struct_after } pkg rfl l b
  have hm : ∀ b : sb_t, iopc_dump_modules t_camelcase_to_c b
        { pkg with structs := pkg.structs.map struct_after,
                   ifaces := pkg.ifaces.map iface_after }
      = iopc_dump_modules t_camelcase_to_c b pkg := fun _ => rfl
  unfold iopc_do_rust iopc_dump_ifaces pkg_text pkg_after
  simp only [iopc_dump_structs_loop_eq, iopc_dump_ifaces_loop_eq, hi, hm]
  refine Prod.ext ?_ rfl
  by_cases he : pkg.enums.length > 0 <;>
    simp only [he, if_true, if_false, String.append_assoc, String.append_empty]

end externals

/-! ## Running the emission twice, and what it does to the package (C9, C10) -/

section externals
variable (t_camelcase_to_c : String → String)
variable (iopc_is_class : iopc_struct_type_t → Bool)

theorem pkg_after_idem (pkg : iopc_pkg_t) :
    pkg_after (pkg_after pkg) = pkg_after pkg := by
  unfold pkg_after
  simp only [List.map_map]
  congr 1
  · exact List.map_congr_left (fun st _ => struct_after_idem st)
  · exact List.map_congr_left (fun iface _ => iface_after_idem iface)

theorem pkg_text_after (pkg : iopc_pkg_t)
    (t_deps t_weak_deps i_deps : List iopc_pkg_t) :
    pkg_text t_camelcase_to_c iopc_is_class (pkg_after pkg) t_deps
        t_weak_deps i_deps
      = pkg_text t_camelcase_to_c iopc_is_class pkg t_deps t_weak_deps
          i_deps := by
  have ha : (pkg_after pkg).addr = pkg.addr := rfl
  have hs : sb_concat ((pkg_after pkg).structs.map
        (struct_entry_text t_camelcase_to_c iopc_is_class (pkg_after pkg)))
      = sb_concat (pkg.structs.map
          (struct_entry_text t_camelcase_to_c iopc_is_class pkg)) := by
    have e : (pkg_after pkg).structs = pkg.structs.map struct_after := rfl
    rw [e, List.map_map]
    congr 1
    exact List.map_congr_left (fun st _ =>
      struct_entry_text_after t_camelcase_to_c iopc_is_class ha st)
  have hi : ifaces_text t_camelcase_to_c iopc_is_class (pkg_after pkg)
        (pkg_after pkg).ifaces true
      = ifaces_text t_camelcase_to_c iopc_is_class pkg pkg.ifaces true :=
    ifaces_text_after t_camelcase_to_c iopc_is_class ha pkg.ifaces true
  have hm : ∀ b : sb_t, iopc_dump_modules t_camelcase_to_c b (pkg_after pkg)
      = iopc_dump_modules t_camelcase_to_c b pkg := fun _ => rfl
  have he : ∀ b : sb_t, iopc_dump_enums b (pkg_after pkg)
      = iopc_dump_enums b pkg := fun _ => rfl
  have hl : (pkg_after pkg).enums = pkg.enums := rfl
  unfold pkg_text
  rw [hs, hi, hm, he, hl]

/-- C9 (idempotence of generation).  For every package and dependency
lists, running the emission of `iopc_do_rust` a second time, on the package
as the first run leaves it, gives the same buffer, byte for byte, and leaves
the package as it was after the first run: the sort in place that
`iopc_dump_struct` and `iopc_dump_union` did in the first run does not change
what the second run writes. -/
theorem iopc_do_rust_idempotent (pkg : iopc_pkg_t)
    (t_deps t_weak_deps i_deps : List iopc_pkg_t) :
    (iopc_do_rust t_camelcase_to_c iopc_is_class
        (iopc_do_rust t_camelcase_to_c iopc_is_class pkg t_deps t_weak_deps
          i_deps).2 t_deps t_weak_deps i_deps).1
      = (iopc_do_rust t_camelcase_to_c iopc_is_class pkg t_deps t_weak_deps
          i_deps).1 ∧
    (iopc_do_rust t_camelcase_to_c iopc_is_class
        (iopc_do_rust t_camelcase_to_c iopc_is_class pkg t_deps t_weak_deps
          i_deps).2 t_deps t_weak_deps i_deps).2
      = (iopc_do_rust t_camelcase_to_c iopc_is_class pkg t_deps t_weak_deps
          i_deps).2 := by
  rw [iopc_do_rust_eq t_camelcase_to_c iopc_is_class pkg,
    iopc_do_rust_eq t_camelcase_to_c iopc_is_class (pkg_after pkg)]
  constructor
  · exact pkg_text_after t_camelcase_to_c iopc_is_class pkg t_deps
      t_weak_deps i_deps
  · exact pkg_after_idem pkg

/-- C9 at a sample: the package with the struct `S` and the union `U`, whose
fields are not declared in the order of the tags. -/
theorem iopc_do_rust_idempotent_example :
    (iopc_do_rust sample_camelcase_to_c sample_is_class
        (iopc_do_rust sample_camelcase_to_c sample_is_class sample_pkg_s_u
          [sample_dep_c] [] []).2 [sample_dep_c] [] []).1
      = (iopc_do_rust sample_camelcase_to_c sample_is_class sample_pkg_s_u
          [sample_dep_c] [] []).1 :=
  (iopc_do_rust_idempotent sample_camelcase_to_c sample_is_class
    sample_pkg_s_u [sample_dep_c] [] []).1

/-- C10 fails: the struct `S` of the sample package is declared with the
tags 4, 1, 2 and the union `U` with the tags 2, 1; after the emission the
package holds them with the tags in the order 1, 2, 4 and 1, 2: the package
is not the one that went in. -/
theorem iopc_do_rust_reorders_fields :
    sample_pkg_s_u.structs.map (fun st => st.fields.map (fun f => f.tag))
      = [[4, 1, 2], [2, 1]] ∧
    (iopc_do_rust sample_camelcase_to_c sample_is_class sample_pkg_s_u
        [] [] []).2.structs.map (fun st => st.fields.map (fun f => f.tag))
      = [[1, 2, 4], [1, 2]] ∧
    (iopc_do_rust sample_camelcase_to_c sample_is_class sample_pkg_s_u
        [] [] []).2 ≠ sample_pkg_s_u := by
  decide

/-- C10 amended (what the emission does to the package).  The emission
leaves the package as it was but for the order of fields.  A struct of
`pkg->structs` of kind struct, class or union has gone through
`iopc_struct_sort_fields`, a struct of another kind is as it was.  An
interface of kind `IFACE_TYPE_IFACE` has, in each of its RPCs, every payload
that is there and anonymous gone through `iopc_struct_sort_fields`, its other
payloads as they were; an interface of another kind is as it was, payloads
included.  `iopc_struct_sort_fields` keeps the name, the kind and the parents
of the struct, permutes its fields into increasing order of tag, and leaves a
field list that is already in that order as it is.  The address, the name,
the enums and the modules of the package are not touched. -/
theorem iopc_do_rust_sorts_in_place (pkg : iopc_pkg_t)
    (t_deps t_weak_deps i_deps : List iopc_pkg_t) :
    (iopc_do_rust t_camelcase_to_c iopc_is_class pkg t_deps t_weak_deps
        i_deps).2
      = { pkg with structs := pkg.structs.map struct_after,
                   ifaces := pkg.ifaces.map iface_after } ∧
    (∀ st : iopc_struct_t,
      (st.type = STRUCT_TYPE_STRUCT ∨ st.type = STRUCT_TYPE_CLASS
          ∨ st.type = STRUCT_TYPE_UNION →
        struct_after st = iopc_struct_sort_fields st) ∧
      (st.type = STRUCT_TYPE_OTHER → struct_after st = st)) ∧
    (∀ iface : iopc_iface_t,
      (iface.type = .IFACE_TYPE_IFACE →
        iface_after iface
          = { iface with funs := iface.funs.map rpc_after }) ∧
      (iface.type = .IFACE_TYPE_OTHER → iface_after iface = iface)) ∧
    (∀ rpc : iopc_fun_t,
      rpc_after rpc
        = { rpc with arg := payload_after rpc.arg rpc.arg_is_anonymous,
                     res := payload_after rpc.res rpc.res_is_anonymous,
                     exn := payload_after rpc.exn rpc.exn_is_anonymous }) ∧
    (∀ st : iopc_struct_t,
      payload_after (some st) true = some (iopc_struct_sort_fields st) ∧
      payload_after (some st) false = some st) ∧
    (∀ is_anonymous : Bool, payload_after none is_anonymous = none) ∧
    (∀ st : iopc_struct_t,
      iopc_struct_sort_fields st
          = { st with fields := (iopc_struct_sort_fields st).fields } ∧
      (iopc_struct_sort_fields st).fields.Perm st.fields ∧
      (iopc_struct_sort_fields st).fields.Sorted by_tag ∧
      (st.fields.Sorted by_tag → iopc_struct_sort_fields st = st)) := by
  refine ⟨?_, ?_, ?_, fun _ => rfl, fun _ => ⟨rfl, rfl⟩, fun _ => rfl, ?_⟩
  · rw [iopc_do_rust_eq]
    rfl
  · intro st
    unfold struct_after
    constructor
    · intro h
      rcases h with h | h | h <;> simp [h]
    · intro h
      simp [h]
  · intro iface
    unfold iface_after
    constructor
    · intro h
      simp [h]
    · intro h
      simp [h]
  · intro st
    refine ⟨rfl, iopc_struct_sort_fields_perm st,
      iopc_struct_sort_fields_sorted st, fun h => ?_⟩
    unfold iopc_struct_sort_fields
    rw [h.insertionSort_eq]

/-- C10 amended at a sample: the RPC `doIt` has an anonymous exception
payload with the tags 4, 1, 2 and an argument of an existing type with the
same tags.  In the interface the emission skips, both are left as they were;
in the interface it writes, the anonymous payload is left with the tags
1, 2, 4 and the argument as it was. -/
theorem iopc_do_rust_sorts_in_place_witness :
    (iopc_do_rust sample_camelcase_to_c sample_is_class sample_pkg_ifaces
        [] [] []).2.ifaces.map
        (fun iface => iface.funs.map (fun rpc =>
          (rpc.exn.map (fun st => st.fields.map (fun f => f.tag)),
           rpc.arg.map (fun st => st.fields.map (fun f => f.tag)))))
      = [[(some [4, 1, 2], some [4, 1, 2])],
         [(some [1, 2, 4], some [4, 1, 2])]] :=
  (congrArg
    (fun p : iopc_pkg_t => p.ifaces.map
      (fun iface => iface.funs.map (fun rpc =>
        (rpc.exn.map (fun st => st.fields.map (fun f => f.tag)),
         rpc.arg.map (fun st => st.fields.map (fun f => f.tag))))))
    (iopc_do_rust_sorts_in_place sample_camelcase_to_c sample_is_class
      sample_pkg_ifaces [] [] []).1).trans (by decide)

end externals

/-! ## Default literals of integers (C11) -/

theorem digitChar_value (k : Nat) (h : k < 10) :
    (Nat.digitChar k).toNat - '0'.toNat = k ∧ (Nat.digitChar k).isDigit = true := by
  interval_cases k <;> decide

theorem toDigitsCore_value (fuel n : Nat) (ds : List Char) (h : n < fuel) :
    (Nat.toDigitsCore 10 fuel n ds).foldl
        (fun n c => 10 * n + (c.toNat - '0'.toNat)) 0
      = ds.foldl (fun n c => 10 * n + (c.toNat - '0'.toNat)) n := by
  induction fuel generalizing n ds with
  | zero => omega
  | succ fuel ih =>
    have hd := (digitChar_value (n % 10) (Nat.mod_lt n (by decide))).1
    unfold Nat.toDigitsCore
    by_cases h0 : n / 10 = 0
    · simp only [h0, if_true, List.foldl_cons, hd]
      congr 1
      omega
    · simp only [h0, if_false]
      rw [ih (n / 10) _ (by omega), List.foldl_cons, hd]
      congr 1
      omega

theorem toDigitsCore_all_digits (fuel n : Nat) (ds : List Char)
    (h : ds.all Char.isDigit = true) :
    (Nat.toDigitsCore 10 fuel n ds).all Char.isDigit = true := by
  induction fuel generalizing n ds with
  | zero => simpa [Nat.toDigitsCore] using h
  | succ fuel ih =>
    have hd := (digitChar_value (n % 10) (Nat.mod_lt n (by decide))).2
    have hc : (Nat.digitChar (n % 10) :: ds).all Char.isDigit = true := by
      simp only [List.all_cons, hd, h, Bool.and_self]
    unfold Nat.toDigitsCore
    by_cases h0 : n / 10 = 0
    · simp only [h0, if_true]
      exact hc
    · simp only [h0, if_false]
      exact ih _ _ hc

theorem toDigitsCore_ne_nil (fuel n : Nat) (ds : List Char) :
    Nat.toDigitsCore 10 (fuel + 1) n ds ≠ [] := by
  induction fuel generalizing n ds with
  | zero =>
    unfold Nat.toDigitsCore
    by_cases h0 : n / 10 = 0 <;> simp [h0, Nat.toDigitsCore]
  | succ fuel ih =>
    unfold Nat.toDigitsCore
    by_cases h0 : n / 10 = 0
    · simp [h0]
    · simp only [h0, if_false]
      exact ih _ _

theorem parse_digits_toDigits (n : Nat) :
    parse_digits (Nat.toDigits 10 n) = some n := by
  unfold parse_digits Nat.toDigits
  rw [if_pos ⟨toDigitsCore_ne_nil n n [], toDigitsCore_all_digits _ _ _ rfl⟩,
    toDigitsCore_value _ _ _ (Nat.lt_succ_self n)]
  rfl

theorem parse_decimal_nat (n : Nat) :
    parse_decimal (toString n) = some (n : Int) := by
  have hne := toDigitsCore_ne_nil n n []
  have hall := toDigitsCore_all_digits (n + 1) n [] rfl
  have hp := parse_digits_toDigits n
  show parse_decimal (Nat.toDigits 10 n).asString = some (n : Int)
  unfold parse_decimal List.asString
  unfold Nat.toDigits at hp ⊢
  cases hl : Nat.toDigitsCore 10 (n + 1) n [] with
  | nil => exact absurd hl hne
  | cons c cs =>
    rw [hl] at hall hp
    have hc : c ≠ '-' := by
      intro e
      rw [e] at hall
      simp at hall
    split
    · rename_i h
      simp only [List.cons.injEq] at h
      exact absurd h.1 hc
    · rw [hp]
      rfl

theorem parse_decimal_int (v : Int) :
    parse_decimal (toString v) = some v := by
  cases v with
  | ofNat n => exact parse_decimal_nat n
  | negSucc n =>
    show parse_decimal ("-" ++ (Nat.toDigits 10 (n + 1)).asString) = _
    unfold parse_decimal
    have e : ("-" ++ (Nat.toDigits 10 (n + 1)).asString).data
        = '-' :: Nat.toDigits 10 (n + 1) := rfl
    rw [e]
    simp only [parse_digits_toDigits, Option.map_some']
    rfl

theorem defval_i64_of_stored (field : iopc_field_t) (v : Int)
    (hlo : -2 ^ 63 ≤ v) (hhi : v < 2 ^ 63)
    (hstored : defval_u64 field = (v % 2 ^ 64).toNat) :
    defval_i64 field = v := by
  unfold defval_i64
  rw [hstored]
  norm_num at hlo hhi ⊢
  split <;> omega

section externals
variable (t_camelcase_to_c : String → String)
variable (iopc_is_class : iopc_struct_type_t → Bool)

theorem iopc_dump_field_defval_split (buf : sb_t) (pkg : iopc_pkg_t)
    (field : iopc_field_t) (flags : Nat) :
    iopc_dump_field_defval t_camelcase_to_c buf pkg field flags
      = buf ++ field_ident t_camelcase_to_c field flags ++ style_sep flags
          ++ defval_literal field ++ style_close flags := by
  rw [iopc_dump_field_defval_eq, field_defval_text_eq]
  unfold field_ident style_sep style_close
  by_cases hf : flags &&& ENUM_STYLE = 0 <;>
    simp [-String.reduceAppend, hf, String.append_assoc]

theorem iopc_dump_field_split (buf : sb_t) (pkg : iopc_pkg_t)
    (field : iopc_field_t) (flags : Nat) :
    iopc_dump_field t_camelcase_to_c iopc_is_class buf pkg field flags
      = buf ++ field_ident t_camelcase_to_c field flags ++ style_sep flags
          ++ field_type_text iopc_is_class pkg field flags
          ++ style_close flags := by
  unfold iopc_dump_field field_ident style_sep style_close name_escape
  simp only [iopc_dump_field_type_eq]
  by_cases hf : flags &&& ENUM_STYLE = 0 <;>
    simp [-String.reduceAppend, hf, String.append_assoc]

/-- C11 (`iopc_dump_field_defval`, integer default round trip).  For a
defaulted field of a signed integer kind whose stored 64-bit word is the
two's complement of `v`, the literal written is the decimal text of `v`; for
a defaulted field of an unsigned integer kind it is the decimal text of the
stored 64-bit word; read back as a decimal integer, the literal gives the
stored value. -/
theorem iopc_dump_field_defval_integer (buf : sb_t) (pkg : iopc_pkg_t)
    (field : iopc_field_t) (flags : Nat)
    (hdef : field.repeat_ = IOP_R_DEFVAL) :
    (field.kind ∈ [IOP_T_I8, IOP_T_I16, IOP_T_I32, IOP_T_I64] →
      ∀ v : Int, -2 ^ 63 ≤ v → v < 2 ^ 63 →
        field.defval.u64 % 2 ^ 64 = (v % 2 ^ 64).toNat →
        iopc_dump_field_defval t_camelcase_to_c buf pkg field flags
          = buf ++ field_ident t_camelcase_to_c field flags
              ++ style_sep flags ++ toString v ++ style_close flags ∧
        parse_decimal (toString v) = some v) ∧
    (field.kind ∈ [IOP_T_U8, IOP_T_U16, IOP_T_U32, IOP_T_U64] →
      iopc_dump_field_defval t_camelcase_to_c buf pkg field flags
        = buf ++ field_ident t_camelcase_to_c field flags
            ++ style_sep flags ++ toString (field.defval.u64 % 2 ^ 64)
            ++ style_close flags ∧
      parse_decimal (toString (field.defval.u64 % 2 ^ 64))
        = some ((field.defval.u64 % 2 ^ 64 : Nat) : Int)) := by
  constructor
  · intro hk v hlo hhi hstored
    have hv : defval_i64 field = v := defval_i64_of_stored field v hlo hhi hstored
    have hl : defval_literal field = toString v := by
      unfold defval_literal
      simp only [List.mem_cons, List.mem_singleton, List.not_mem_nil, or_false] at hk
      rcases hk with h | h | h | h <;> simp [hdef, h, hv]
    refine ⟨?_, parse_decimal_int v⟩
    rw [iopc_dump_field_defval_split, hl]
  · intro hk
    have hl : defval_literal field = toString (field.defval.u64 % 2 ^ 64) := by
      unfold defval_literal
      simp only [List.mem_cons, List.mem_singleton, List.not_mem_nil, or_false] at hk
      rcases hk with h | h | h | h <;> simp [hdef, h, defval_u64]
    refine ⟨?_, parse_decimal_nat _⟩
    rw [iopc_dump_field_defval_split, hl]

/-- C11 at a sample: the `i32` field `n` with the stored default -5 gets the
literal `-5`, which reads back as -5; the `u64` field with the same stored
word gets `18446744073709551611`. -/
theorem iopc_dump_field_defval_integer_witness :
    sample_default_minus_5.repeat_ = IOP_R_DEFVAL ∧
    iopc_dump_field_defval sample_camelcase_to_c "" sample_pkg
        sample_default_minus_5 0 = "n: -5" ∧
    parse_decimal "-5" = some (-5) ∧
    iopc_dump_field_defval sample_camelcase_to_c "" sample_pkg
        sample_default_u64 0 = "n: 18446744073709551611" ∧
    parse_decimal "18446744073709551611" = some 18446744073709551611 := by
  have h := (iopc_dump_field_defval_integer sample_camelcase_to_c ""
    sample_pkg sample_default_minus_5 0 rfl).1 (by decide) (-5) (by decide)
    (by decide) (by decide)
  have h2 := (iopc_dump_field_defval_integer sample_camelcase_to_c ""
    sample_pkg sample_default_u64 0 rfl).2 (by decide)
  exact ⟨rfl, h.1.trans (by decide), h.2, h2.1.trans (by decide), h2.2⟩

end externals

/-! ## Escaping of names and generic defaults (C12, C18) -/

section externals
variable (t_camelcase_to_c : String → String)
variable (iopc_is_class : iopc_struct_type_t → Bool)

/-- C12 (reserved-word escaping is consistent).  For every field and every
value of the flags, `iopc_dump_field` and `iopc_dump_field_defval` write the
same identifier, the escape followed by the name in the case of the style,
at the start of what they append; for a field named `type`, in the style of
members, it is `r#` followed by what `t_camelcase_to_c` makes of `type`. -/
theorem iopc_dump_field_escape_consistent (buf : sb_t) (pkg : iopc_pkg_t)
    (field : iopc_field_t) (flags : Nat) :
    iopc_dump_field t_camelcase_to_c iopc_is_class buf pkg field flags
      = buf ++ field_ident t_camelcase_to_c field flags ++ style_sep flags
          ++ iopc_dump_field_type iopc_is_class "" pkg field flags
          ++ style_close flags ∧
    iopc_dump_field_defval t_camelcase_to_c buf pkg field flags
      = buf ++ field_ident t_camelcase_to_c field flags ++ style_sep flags
          ++ defval_literal field ++ style_close flags ∧
    (field.name = "type" → flags &&& ENUM_STYLE = 0 →
      field_ident t_camelcase_to_c field flags
        = "r#" ++ t_camelcase_to_c "type") := by
  refine ⟨iopc_dump_field_split t_camelcase_to_c iopc_is_class buf pkg field
      flags,
    iopc_dump_field_defval_split t_camelcase_to_c buf pkg field flags, ?_⟩
  intro hn hf
  have hr : is_name_reserved "type" = true := by decide
  simp [field_ident, name_escape, hn, hf, hr]

/-- C12 at a sample: the field named `type`, in the style of members, with a
`t_camelcase_to_c` that leaves `type` as it is: both entries start with
`r#type`. -/
theorem iopc_dump_field_escape_consistent_witness :
    field_ident sample_camelcase_to_c sample_field_type 0 = "r#type" ∧
    iopc_dump_field sample_camelcase_to_c sample_is_class "" sample_pkg
        sample_field_type 0 = "r#type: i32" ∧
    iopc_dump_field_defval sample_camelcase_to_c "" sample_pkg
        sample_field_type 0 = "r#type: Default::default()" := by
  have h := iopc_dump_field_escape_consistent sample_camelcase_to_c
    sample_is_class "" sample_pkg sample_field_type 0
  exact ⟨(h.2.2 rfl (by decide)).trans (by decide), h.1.trans (by decide),
    h.2.1.trans (by decide)⟩

/-- C18 (`iopc_dump_field_defval`, generic defaults).  For every field that
is not defaulted, of any kind, the value written is `Default::default()`; for
every defaulted field of enum kind it is `Default::default()` too, and the
text written for a field of enum kind does not depend on the stored
default. -/
theorem iopc_dump_field_defval_generic (buf : sb_t) (pkg : iopc_pkg_t)
    (field : iopc_field_t) (flags : Nat) :
    (field.repeat_ ≠ IOP_R_DEFVAL →
      iopc_dump_field_defval t_camelcase_to_c buf pkg field flags
        = buf ++ field_ident t_camelcase_to_c field flags ++ style_sep flags
            ++ "Default::default()" ++ style_close flags) ∧
    (field.repeat_ = IOP_R_DEFVAL → field.kind = IOP_T_ENUM →
      iopc_dump_field_defval t_camelcase_to_c buf pkg field flags
        = buf ++ field_ident t_camelcase_to_c field flags ++ style_sep flags
            ++ "Default::default()" ++ style_close flags) ∧
    (field.kind = IOP_T_ENUM → ∀ d : iopc_defval_t,
      iopc_dump_field_defval t_camelcase_to_c buf pkg
          { field with defval := d } flags
        = iopc_dump_field_defval t_camelcase_to_c buf pkg field flags) := by
  refine ⟨fun hr => ?_, fun hr hk => ?_, fun hk d => ?_⟩
  · have hl : defval_literal field = "Default::default()" := by
      simp [defval_literal, hr]
    rw [iopc_dump_field_defval_split, hl]
  · have hl : defval_literal field = "Default::default()" := by
      simp [defval_literal, hr, hk]
    rw [iopc_dump_field_defval_split, hl]
  · have hl : defval_literal { field with defval := d }
        = defval_literal field := by
      unfold defval_literal
      simp only [hk]
    rw [iopc_dump_field_defval_split, iopc_dump_field_defval_split, hl]
    rfl

/-- C18 at a sample: a defaulted field of enum kind with the stored default
1, and the same field with the stored default 0. -/
theorem iopc_dump_field_defval_generic_witness :
    iopc_dump_field_defval sample_camelcase_to_c "" sample_pkg
        sample_enum_default 0 = "color: Default::default()" ∧
    iopc_dump_field_defval sample_camelcase_to_c "" sample_pkg
        { sample_enum_default with defval := ⟨0, "", ""⟩ } 0
      = iopc_dump_field_defval sample_camelcase_to_c "" sample_pkg
          sample_enum_default 0 ∧
    iopc_dump_field_defval sample_camelcase_to_c "" sample_pkg
        (sample_i32 "x" 1) 0 = "x: Default::default()" := by
  have h := iopc_dump_field_defval_generic sample_camelcase_to_c ""
    sample_pkg sample_enum_default 0
  have h2 := iopc_dump_field_defval_generic sample_camelcase_to_c ""
    sample_pkg (sample_i32 "x" 1) 0
  exact ⟨(h.2.1 rfl rfl).trans (by decide), h.2.2 rfl ⟨0, "", ""⟩,
    (h2.1 (by decide)).trans (by decide)⟩

end externals

/-! ## Enums and modules (C13, C17) -/

theorem foldl_append_eq {α : Type} (line : α → String) (l : List α)
    (buf : sb_t) :
    l.foldl (fun buf x => buf ++ line x) buf
      = buf ++ sb_concat (l.map line) := by
  induction l generalizing buf with
  | nil => simp
  | cons x l ih => simp [ih, String.append_assoc]

/-- C13 (`iopc_dump_enum`).  For every enum with at least one pair, what is
appended is the head of the declaration, one line `<name> = <value>,` per
pair in the order of declaration, the end of the declaration, and an
`impl Default` whose body is `<Enum>::<name of the first pair>`. -/
theorem iopc_dump_enum_members_default (buf : sb_t) (indent : String)
    (pkg : iopc_pkg_t) (en : iopc_enum_t) (first : iopc_enum_field_t)
    (others : List iopc_enum_field_t) (hvalues : en.values = first :: others) :
    iopc_dump_enum buf indent pkg en
      = buf ++ "\n" ++ indent
          ++ "#[derive(PartialEq, Eq, Clone, Serialize_repr, Deserialize_repr)]"
          ++ "\n" ++ indent ++ "#[repr(i32)]"
          ++ "\n" ++ indent ++ "pub enum " ++ en.name ++ " \x7b"
          ++ sb_concat (en.values.map (fun field =>
              "\n" ++ indent ++ "    " ++ field.name ++ " = "
                ++ toString field.value ++ ","))
          ++ "\n" ++ indent ++ "\x7d\n"
          ++ indent ++ "impl Default for " ++ en.name ++ " \x7b\n"
          ++ indent ++ "    fn default() -> Self \x7b\n"
          ++ indent ++ "        " ++ en.name ++ "::" ++ first.name ++ "\n"
          ++ indent ++ "    \x7d\n"
          ++ indent ++ "\x7d\n" := by
  unfold iopc_dump_enum
  have hf := foldl_append_eq (fun (field : iopc_enum_field_t) =>
    "\n" ++ indent ++ "    " ++ field.name ++ " = " ++ toString field.value
      ++ ",") en.values
  simp only [String.append_assoc] at hf ⊢
  rw [hf, hvalues]
  simp [-String.reduceAppend, String.append_assoc]

/-- C13 at a sample: `Color` with `RED = 0` and `BLUE = 1` gets two member
lines and the default `Color::RED`. -/
theorem iopc_dump_enum_members_default_witness :
    sample_enum_color.values = [⟨"RED", 0⟩, ⟨"BLUE", 1⟩] ∧
    iopc_dump_enum "" "" sample_pkg sample_enum_color
      = "\n#[derive(PartialEq, Eq, Clone, Serialize_repr, Deserialize_repr)]\n#[repr(i32)]\npub enum Color \x7b\n    RED = 0,\n    BLUE = 1,\n\x7d\nimpl Default for Color \x7b\n    fn default() -> Self \x7b\n        Color::RED\n    \x7d\n\x7d\n" :=
  ⟨rfl,
   (iopc_dump_enum_members_default "" "" sample_pkg sample_enum_color
      ⟨"RED", 0⟩ [⟨"BLUE", 1⟩] rfl).trans (by decide)⟩

section externals
variable (t_camelcase_to_c : String → String)
variable (iopc_is_class : iopc_struct_type_t → Bool)

/-- C17 (`iopc_dump_modules`).  For a package without module nothing is
appended; for a package with at least one module what is appended is the
scope `modules` holding one `pub mod` scope per module, in order, and in each
of them one line `pub const <NAME>: u16 = <tag>;` per field of the module, in
the order of the fields, with the tag of the field. -/
theorem iopc_dump_modules_constants (buf : sb_t) (pkg : iopc_pkg_t) :
    (pkg.modules = [] → iopc_dump_modules t_camelcase_to_c buf pkg = buf) ∧
    (pkg.modules ≠ [] →
      iopc_dump_modules t_camelcase_to_c buf pkg
        = buf ++ "\npub mod modules \x7b\n"
            ++ sb_concat (pkg.modules.map (fun mod =>
                "    pub mod " ++ t_camelcase_to_c mod.name ++ " \x7b\n"
                  ++ sb_concat (mod.fields.map (fun f =>
                      "        pub const "
                        ++ lstr_ascii_toupper (t_camelcase_to_c f.name)
                        ++ ": u16 = " ++ toString f.tag ++ ";\n"))
                  ++ "    \x7d\n"))
            ++ "\x7d\n") := by
  constructor
  · intro h
    simp [iopc_dump_modules, h]
  · intro h
    have hlen : ¬ pkg.modules.length = 0 := by
      simpa [List.length_eq_zero] using h
    have hin : ∀ (mod : iopc_struct_t) (b : sb_t),
        mod.fields.foldl (fun buf f =>
            buf ++ "        pub const "
              ++ lstr_ascii_toupper (t_camelcase_to_c f.name) ++ ": u16 = "
              ++ toString f.tag ++ ";\n") b
          = b ++ sb_concat (mod.fields.map (fun f =>
              "        pub const "
                ++ lstr_ascii_toupper (t_camelcase_to_c f.name)
                ++ ": u16 = " ++ toString f.tag ++ ";\n")) := by
      intro mod b
      have := foldl_append_eq (fun (f : iopc_field_t) =>
        "        pub const " ++ lstr_ascii_toupper (t_camelcase_to_c f.name)
          ++ ": u16 = " ++ toString f.tag ++ ";\n") mod.fields b
      simp only [String.append_assoc] at this ⊢
      exact this
    have hout := foldl_append_eq (fun (mod : iopc_struct_t) =>
      "    pub mod " ++ t_camelcase_to_c mod.name ++ " \x7b\n"
        ++ sb_concat (mod.fields.map (fun f =>
            "        pub const "
              ++ lstr_ascii_toupper (t_camelcase_to_c f.name)
              ++ ": u16 = " ++ toString f.tag ++ ";\n"))
        ++ "    \x7d\n") pkg.modules (buf ++ "\npub mod modules \x7b\n")
    unfold iopc_dump_modules
    simp only [hlen, if_false, hin]
    simp only [String.append_assoc] at hout ⊢
    rw [hout]
    simp only [String.append_assoc]

/-- C17 at a sample: a package with the module `m` of fields `a` (tag 3) and
`b` (tag 1), `lstr_ascii_toupper` giving `A` and `B`. -/
theorem iopc_dump_modules_constants_witness :
    sample_pkg_module.modules ≠ [] ∧
    iopc_dump_modules sample_camelcase_to_c "" sample_pkg_module
      = "\npub mod modules \x7b\n    pub mod m \x7b\n        pub const A: u16 = 3;\n        pub const B: u16 = 1;\n    \x7d\n\x7d\n" ∧
    iopc_dump_modules sample_camelcase_to_c "" sample_pkg = "" :=
  ⟨by decide,
   ((iopc_dump_modules_constants sample_camelcase_to_c ""
      sample_pkg_module).2 (by decide)).trans (by decide),
   (iopc_dump_modules_constants sample_camelcase_to_c "" sample_pkg).1 rfl⟩

end externals

/-! ## Names of types across packages (C16) -/

theorem sb_shrink_append (s t : String) :
    sb_shrink (s ++ t) t.length = s := by
  unfold sb_shrink
  apply String.ext
  show List.take ((s ++ t).data.length - t.data.length) (s ++ t).data = s.data
  rw [String.data_append, List.length_append, Nat.add_sub_cancel]
  exact List.take_left' rfl

theorem intercalate_go_sep (sep acc : String) (l : List String) :
    String.intercalate.go acc sep l ++ sep
      = l.foldl (fun buf bit => buf ++ bit ++ sep) (acc ++ sep) := by
  induction l generalizing acc with
  | nil => rfl
  | cons a l ih =>
    show String.intercalate.go (acc ++ sep ++ a) sep l ++ sep = _
    rw [ih, List.foldl_cons]

theorem pp_under_eq (path : iopc_path_t) :
    pp_under path = String.intercalate "__" path.bits := by
  unfold pp_under
  cases h : path.bits with
  | nil => rfl
  | cons b bs =>
    have e : List.foldl (fun buf bit => buf ++ bit ++ "__") "" (b :: bs)
        = String.intercalate "__" (b :: bs) ++ "__" := by
      show _ = String.intercalate.go b "__" bs ++ "__"
      rw [intercalate_go_sep, List.foldl_cons]
      simp only [String.empty_append]
    rw [e]
    exact sb_shrink_append _ "__"

theorem sb_append_ne_self (buf a b : String) (h : 0 < a.length) :
    buf ++ a ++ b ≠ buf ++ b := by
  intro e
  have h1 := congrArg String.length e
  simp only [String.length_append] at h1
  omega

section externals
variable (t_camelcase_to_c : String → String)
variable (iopc_is_class : iopc_struct_type_t → Bool)

/-- C16 (`iopc_dump_package_member`, cross-package qualification).  For
every reference to a struct, a union or an enum, the name written is the bare
name of the type when the package of the type is the package being written,
and the segments of the path joined by `__`, a dot, then the name of the type
when it is another package; the qualification is there if and only if the
two packages differ.  The base type of a field of kind union or enum is that
name, the one of a field of kind struct is that name, in a `Box<` `>` or
not. -/
theorem iopc_dump_package_member_qualified (buf : sb_t) (pkg : iopc_pkg_t)
    (member_pkg : Nat) (member_path : iopc_path_t) (member_name : String) :
    (pkg.addr = member_pkg →
      iopc_dump_package_member buf pkg member_pkg member_path member_name
        = buf ++ member_name) ∧
    (pkg.addr ≠ member_pkg →
      iopc_dump_package_member buf pkg member_pkg member_path member_name
        = buf ++ String.intercalate "__" member_path.bits ++ "."
            ++ member_name) ∧
    (iopc_dump_package_member buf pkg member_pkg member_path member_name
        = buf ++ member_name ↔ pkg.addr = member_pkg) ∧
    (∀ field : iopc_field_t,
      field.type_pkg = member_pkg → field.type_path = member_path →
      field.type_name = member_name →
      (field.kind = IOP_T_UNION ∨ field.kind = IOP_T_ENUM →
        iopc_dump_field_basetype iopc_is_class buf pkg field
          = iopc_dump_package_member buf pkg member_pkg member_path
              member_name) ∧
      (field.kind = IOP_T_STRUCT →
        ∃ w ∈ [("", ""), ("Box<", ">"), ("Box<dyn ", ">")],
          iopc_dump_field_basetype iopc_is_class buf pkg field
            = buf ++ w.1
                ++ iopc_dump_package_member "" pkg member_pkg member_path
                    member_name
                ++ w.2)) := by
  have hsame : pkg.addr = member_pkg →
      iopc_dump_package_member buf pkg member_pkg member_path member_name
        = buf ++ member_name := by
    intro h
    simp [iopc_dump_package_member, h]
  have hother : pkg.addr ≠ member_pkg →
      iopc_dump_package_member buf pkg member_pkg member_path member_name
        = buf ++ String.intercalate "__" member_path.bits ++ "."
            ++ member_name := by
    intro h
    unfold iopc_dump_package_member
    rw [if_pos h, pp_under_eq]
  refine ⟨hsame, hother, ⟨fun h => ?_, hsame⟩, ?_⟩
  · by_contra hne
    rw [hother hne, String.append_assoc buf] at h
    exact sb_append_ne_self buf _ member_name
      (by rw [String.length_append]; exact Nat.lt_add_left _ (by decide)) h
  · intro field h1 h2 h3
    subst h1 h2 h3
    constructor
    · intro hk
      unfold iopc_dump_field_basetype
      rcases hk with hk | hk <;> simp [hk]
    · intro hk
      unfold iopc_dump_field_basetype
      simp only [hk, iopc_dump_package_member_eq]
      cases h1 : iopc_is_class field.struct_def_type <;>
        cases h2 : field.is_ref <;>
        simp [-String.reduceAppend, String.append_assoc]

/-- C16 at a sample: from the package at address 1, the type `T` of the
package `a.b` at address 7 is written `a__b.T`, and the type `T` of the
package at address 1 is written `T`. -/
theorem iopc_dump_package_member_qualified_witness :
    iopc_dump_package_member "" sample_pkg 7 ⟨["a", "b"]⟩ "T" = "a__b.T" ∧
    iopc_dump_package_member "" sample_pkg 1 ⟨["x", "y"]⟩ "T" = "T" := by
  have h := iopc_dump_package_member_qualified sample_is_class "" sample_pkg
    7 ⟨["a", "b"]⟩ "T"
  have h2 := iopc_dump_package_member_qualified sample_is_class "" sample_pkg
    1 ⟨["x", "y"]⟩ "T"
  exact ⟨(h.2.1 (by decide)).trans (by decide), (h2.1 rfl).trans (by decide)⟩

end externals

/-! ## RPCs (C14, C15) -/

theorem sb_ninth_char_ne (x y : String) :
    "        #" ++ x ≠ "        p" ++ y := by
  intro h
  have h1 := congrArg String.data h
  simp only [String.data_append] at h1
  simp at h1

section externals
variable (t_camelcase_to_c : String → String)
variable (iopc_is_class : iopc_struct_type_t → Bool)

theorem iopc_dump_rpc_blocks (buf : sb_t) (pkg : iopc_pkg_t)
    (rpc : iopc_fun_t) :
    (iopc_dump_rpc t_camelcase_to_c iopc_is_class buf pkg rpc).1
      = buf
          ++ payload_text t_camelcase_to_c iopc_is_class pkg
              (t_field_name_to_camelcase rpc.name) "Args" rpc.arg
              rpc.arg_is_anonymous rpc.farg
          ++ payload_text t_camelcase_to_c iopc_is_class pkg
              (t_field_name_to_camelcase rpc.name) "Res" rpc.res
              rpc.res_is_anonymous rpc.fres
          ++ payload_text t_camelcase_to_c iopc_is_class pkg
              (t_field_name_to_camelcase rpc.name) "Exn" rpc.exn
              rpc.exn_is_anonymous rpc.fexn
          ++ rpc_descriptor_text (t_field_name_to_camelcase rpc.name) rpc := by
  rw [iopc_dump_rpc_eq]
  simp only [rpc_text, String.append_assoc]

theorem basetype_text_repeat (pkg : iopc_pkg_t) (f : iopc_field_t)
    (r : iop_repeat_t) :
    basetype_text iopc_is_class pkg { f with repeat_ := r }
      = basetype_text iopc_is_class pkg f := rfl

/-- C14 (`iopc_dump_rpc`, single-field payload).  What `iopc_dump_rpc`
appends is the three payload blocks and the descriptor; the block of a
payload that is there and not anonymous is the wrapper
`pub struct <Name><Role>(pub B);` with `B` the base type expression of the
field, and it is the same whatever the cardinality of the field. -/
theorem iopc_dump_rpc_single_field (buf : sb_t) (pkg : iopc_pkg_t)
    (rpc : iopc_fun_t) :
    (iopc_dump_rpc t_camelcase_to_c iopc_is_class buf pkg rpc).1
      = buf
          ++ payload_text t_camelcase_to_c iopc_is_class pkg
              (t_field_name_to_camelcase rpc.name) "Args" rpc.arg
              rpc.arg_is_anonymous rpc.farg
          ++ payload_text t_camelcase_to_c iopc_is_class pkg
              (t_field_name_to_camelcase rpc.name) "Res" rpc.res
              rpc.res_is_anonymous rpc.fres
          ++ payload_text t_camelcase_to_c iopc_is_class pkg
              (t_field_name_to_camelcase rpc.name) "Exn" rpc.exn
              rpc.exn_is_anonymous rpc.fexn
          ++ rpc_descriptor_text (t_field_name_to_camelcase rpc.name) rpc ∧
    (∀ (name role : String) (st : iopc_struct_t) (f : iopc_field_t),
      payload_text t_camelcase_to_c iopc_is_class pkg name role (some st)
          false f
        = "        #[derive(Serialize, Deserialize)]\n"
            ++ "        pub struct " ++ name ++ role ++ "(pub "
            ++ iopc_dump_field_basetype iopc_is_class "" pkg f ++ ");\n" ∧
      ∀ r : iop_repeat_t,
        payload_text t_camelcase_to_c iopc_is_class pkg name role (some st)
            false { f with repeat_ := r }
          = payload_text t_camelcase_to_c iopc_is_class pkg name role
              (some st) false f) := by
  refine ⟨iopc_dump_rpc_blocks t_camelcase_to_c iopc_is_class buf pkg rpc,
    fun name role st f => ⟨?_, fun r => ?_⟩⟩
  · simp [-String.reduceAppend, payload_text, basetype_text,
      String.append_assoc]
  · simp only [payload_text, basetype_text_repeat]

/-- C14 at a sample: the argument of `doIt` is the existing type of a
repeated field; its wrapper holds the base type, without `Vec<`. -/
theorem iopc_dump_rpc_single_field_witness :
    sample_rpc.farg.repeat_ = IOP_R_REPEATED ∧
    payload_text sample_camelcase_to_c sample_is_class sample_pkg
        (t_field_name_to_camelcase sample_rpc.name) "Args" sample_rpc.arg
        sample_rpc.arg_is_anonymous sample_rpc.farg
      = "        #[derive(Serialize, Deserialize)]\n        pub struct DoItArgs(pub Box<dyn a__b.T>);\n" := by
  have h := (iopc_dump_rpc_single_field sample_camelcase_to_c sample_is_class
    "" sample_pkg sample_rpc).2 "DoIt" "Args" sample_struct_124 sample_field
  exact ⟨rfl, h.1.trans (by decide)⟩

theorem struct_text_plain (indent : String) (pkg : iopc_pkg_t)
    (st : iopc_struct_t) (name : String)
    (h : iopc_is_class st.type = false) :
    struct_text t_camelcase_to_c iopc_is_class indent pkg st (some name)
      = plain_struct_text t_camelcase_to_c iopc_is_class indent pkg st
          name := by
  unfold struct_text struct_head struct_mid struct_tail plain_struct_text
  simp [-String.reduceAppend, h, String.append_assoc]

theorem payload_text_plain (pkg : iopc_pkg_t) (name role : String)
    (st : Option iopc_struct_t) (is_anonymous : Bool) (f : iopc_field_t)
    (h : ∀ s, st = some s → is_anonymous = true →
      iopc_is_class s.type = false) :
    payload_text t_camelcase_to_c iopc_is_class pkg name role st
        is_anonymous f
      = payload_decl_text t_camelcase_to_c iopc_is_class pkg name role st
          is_anonymous f := by
  unfold payload_text payload_decl_text
  cases st with
  | none => rfl
  | some s =>
    cases is_anonymous with
    | false => simp [-String.reduceAppend, basetype_text, String.append_assoc]
    | true =>
      simp only [if_true]
      exact struct_text_plain t_camelcase_to_c iopc_is_class _ pkg s _
        (h s rfl rfl)

theorem payload_decl_text_alias (pkg : iopc_pkg_t) (name role : String)
    (st : Option iopc_struct_t) (is_anonymous : Bool) (f : iopc_field_t) :
    payload_decl_text t_camelcase_to_c iopc_is_class pkg name role st
        is_anonymous f
      = "        pub type " ++ name ++ role ++ " = ();\n" ↔ st = none := by
  constructor
  · intro h
    cases st with
    | none => rfl
    | some s =>
      exfalso
      have e1 : "        pub type " = "        p" ++ "ub type " := by decide
      have e2 : "        #[derive(Serialize, Deserialize)]\n"
          = "        #" ++ "[derive(Serialize, Deserialize)]\n" := by decide
      have e3 : "        " ++ "#[derive(Clone, Serialize, Deserialize)]\n"
          = "        #" ++ "[derive(Clone, Serialize, Deserialize)]\n" := by
        decide
      unfold payload_decl_text plain_struct_text at h
      cases is_anonymous with
      | false =>
        simp only [Bool.false_eq_true, if_false] at h
        rw [e1, e2] at h
        simp only [String.append_assoc] at h
        exact sb_ninth_char_ne _ _ h
      | true =>
        simp only [if_true] at h
        rw [e1, e3] at h
        simp only [String.append_assoc] at h
        exact sb_ninth_char_ne _ _ h
  · intro h
    subst h
    rfl

/-- C15 (`iopc_dump_rpc`, descriptor).  For every RPC whose anonymous
payload structs are not classes, with `N` the name of the RPC, first
character in upper case: what is appended is the declaration of `NArgs`, the
one of `NRes`, the one of `NExn` (each of them the alias `pub type ... = ();`
exactly when the payload is absent), then the marker `pub struct N {}`, then
the `impl ... Rpc for N` with `Input = NArgs`, `Output = NRes`,
`Exception = NExn`, `TAG` the tag of the RPC and `ASYNC` being `true` when
the RPC is asynchronous and `false` when it is not. -/
theorem iopc_dump_rpc_descriptor (buf : sb_t) (pkg : iopc_pkg_t)
    (rpc : iopc_fun_t)
    (harg : ∀ st, rpc.arg = some st → rpc.arg_is_anonymous = true →
      iopc_is_class st.type = false)
    (hres : ∀ st, rpc.res = some st → rpc.res_is_anonymous = true →
      iopc_is_class st.type = false)
    (hexn : ∀ st, rpc.exn = some st → rpc.exn_is_anonymous = true →
      iopc_is_class st.type = false) :
    (iopc_dump_rpc t_camelcase_to_c iopc_is_class buf pkg rpc).1
      = buf
          ++ payload_decl_text t_camelcase_to_c iopc_is_class pkg
              (t_field_name_to_camelcase rpc.name) "Args" rpc.arg
              rpc.arg_is_anonymous rpc.farg
          ++ payload_decl_text t_camelcase_to_c iopc_is_class pkg
              (t_field_name_to_camelcase rpc.name) "Res" rpc.res
              rpc.res_is_anonymous rpc.fres
          ++ payload_decl_text t_camelcase_to_c iopc_is_class pkg
              (t_field_name_to_camelcase rpc.name) "Exn" rpc.exn
              rpc.exn_is_anonymous rpc.fexn
          ++ "        pub struct " ++ t_field_name_to_camelcase rpc.name
          ++ " \x7b\x7d\n"
          ++ "        impl libcommon_ic::types::Rpc for "
          ++ t_field_name_to_camelcase rpc.name ++ " \x7b\n"
          ++ "            type Input = "
          ++ t_field_name_to_camelcase rpc.name ++ "Args;\n"
          ++ "            type Output = "
          ++ t_field_name_to_camelcase rpc.name ++ "Res;\n"
          ++ "            type Exception = "
          ++ t_field_name_to_camelcase rpc.name ++ "Exn;\n"
          ++ "            const TAG: u16 = " ++ toString rpc.tag ++ ";\n"
          ++ "            const ASYNC: bool = "
          ++ (if rpc.fun_is_async then "true" else "false") ++ ";\n"
          ++ "        \x7d\n" ∧
    (∀ (role : String) (st : Option iopc_struct_t) (is_anonymous : Bool)
        (f : iopc_field_t),
      payload_decl_text t_camelcase_to_c iopc_is_class pkg
          (t_field_name_to_camelcase rpc.name) role st is_anonymous f
        = "        pub type " ++ t_field_name_to_camelcase rpc.name ++ role
            ++ " = ();\n" ↔ st = none) := by
  refine ⟨?_, fun role st a f =>
    payload_decl_text_alias t_camelcase_to_c iopc_is_class pkg _ role st a f⟩
  rw [iopc_dump_rpc_blocks,
    payload_text_plain t_camelcase_to_c iopc_is_class pkg _ "Args" _ _ _ harg,
    payload_text_plain t_camelcase_to_c iopc_is_class pkg _ "Res" _ _ _ hres,
    payload_text_plain t_camelcase_to_c iopc_is_class pkg _ "Exn" _ _ _ hexn]
  simp [-String.reduceAppend, rpc_descriptor_text, String.append_assoc]

/-- C15 at a sample: the RPC `doIt` of tag 3, asynchronous, with an existing
type as argument, no result and an anonymous struct as exception. -/
theorem iopc_dump_rpc_descriptor_witness :
    (iopc_dump_rpc sample_camelcase_to_c sample_is_class "" sample_pkg
        sample_rpc).1
      = "        #[derive(Serialize, Deserialize)]\n        pub struct DoItArgs(pub Box<dyn a__b.T>);\n        pub type DoItRes = ();\n        #[derive(Clone, Serialize, Deserialize)]\n        pub struct DoItExn \x7b\n            pub a: i32,\n            pub b: i32,\n            pub _dummy3: (),\n            pub d: i32,\n        \x7d\n        impl Default for DoItExn \x7b\n            fn default() -> Self \x7b\n                Self \x7b\n                    a: Default::default(),\n                    b: Default::default(),\n                    _dummy3: (),\n                    d: Default::default(),\n                \x7d\n            \x7d\n        \x7d\n        pub struct DoIt \x7b\x7d\n        impl libcommon_ic::types::Rpc for DoIt \x7b\n            type Input = DoItArgs;\n            type Output = DoItRes;\n            type Exception = DoItExn;\n            const TAG: u16 = 3;\n            const ASYNC: bool = true;\n        \x7d\n" :=
  (iopc_dump_rpc_descriptor sample_camelcase_to_c sample_is_class ""
    sample_pkg sample_rpc (by decide) (by decide) (by decide)).1.trans
    (by decide)

end externals

/-! ## Structs: order of declaration and names (C19, C20) -/

theorem sorted_tag_lt_of_nodup {l : List iopc_field_t}
    (hs : l.Sorted by_tag) (hn : (l.map (fun f => f.tag)).Nodup) :
    l.Sorted (fun f g => f.tag < g.tag) := by
  have hn2 : l.Pairwise (fun f g => f.tag ≠ g.tag) := by
    rw [List.Nodup, List.pairwise_map] at hn
    exact hn
  exact (List.Pairwise.and hs hn2).imp (fun h => lt_of_le_of_ne h.1 h.2)

theorem iopc_struct_sort_fields_of_perm (st : iopc_struct_t)
    (fields : List iopc_field_t)
    (hnodup : (st.fields.map (fun f => f.tag)).Nodup)
    (hperm : fields.Perm st.fields) :
    iopc_struct_sort_fields { st with fields := fields }
      = iopc_struct_sort_fields st := by
  have h1 : (fields.insertionSort by_tag).Perm (st.fields.insertionSort by_tag) :=
    ((List.perm_insertionSort by_tag fields).trans hperm).trans
      (List.perm_insertionSort by_tag st.fields).symm
  have hn1 : ((st.fields.insertionSort by_tag).map (fun f => f.tag)).Nodup :=
    (((List.perm_insertionSort by_tag st.fields).map _).nodup_iff).2 hnodup
  have hn2 : ((fields.insertionSort by_tag).map (fun f => f.tag)).Nodup :=
    ((h1.map _).nodup_iff).2 hn1
  have e : fields.insertionSort by_tag = st.fields.insertionSort by_tag :=
    List.eq_of_perm_of_sorted h1
      (sorted_tag_lt_of_nodup (List.sorted_insertionSort by_tag fields) hn2)
      (sorted_tag_lt_of_nodup (List.sorted_insertionSort by_tag st.fields) hn1)
  unfold iopc_struct_sort_fields
  simp only [e]

section externals
variable (t_camelcase_to_c : String → String)
variable (iopc_is_class : iopc_struct_type_t → Bool)

/-- C19 (`iopc_dump_struct`, independence of the order of declaration).  For
every struct whose tags are pairwise distinct and every permutation of its
list of fields, `iopc_dump_struct` appends the same text (declaration and
default constructor) and leaves the same struct. -/
theorem iopc_dump_struct_order_independent (buf : sb_t) (indent : String)
    (pkg : iopc_pkg_t) (st : iopc_struct_t) (st_name : Option String)
    (fields : List iopc_field_t)
    (hnodup : (st.fields.map (fun f => f.tag)).Nodup)
    (hperm : fields.Perm st.fields) :
    iopc_dump_struct t_camelcase_to_c iopc_is_class buf indent pkg
        { st with fields := fields } st_name
      = iopc_dump_struct t_camelcase_to_c iopc_is_class buf indent pkg st
          st_name := by
  have hs := iopc_struct_sort_fields_of_perm st fields hnodup hperm
  have hl : fields.length = st.fields.length := hperm.length_eq
  rw [iopc_dump_struct_eq, iopc_dump_struct_eq, hs]
  unfold struct_head struct_mid struct_tail
  simp only [hl]

/-- C19 at a sample: the struct declared with the tags 4, 1, 2 and the same
struct declared with the tags 1, 2, 4. -/
theorem iopc_dump_struct_order_independent_witness :
    (sample_struct_124.fields.map (fun f => f.tag)).Nodup ∧
    [sample_i32 "a" 1, sample_i32 "b" 2, sample_i32 "d" 4].Perm
      sample_struct_124.fields ∧
    iopc_dump_struct sample_camelcase_to_c sample_is_class "" "" sample_pkg
        { sample_struct_124 with
          fields := [sample_i32 "a" 1, sample_i32 "b" 2, sample_i32 "d" 4] }
        none
      = iopc_dump_struct sample_camelcase_to_c sample_is_class "" ""
          sample_pkg sample_struct_124 none :=
  ⟨by decide, by decide,
   iopc_dump_struct_order_independent sample_camelcase_to_c sample_is_class
     "" "" sample_pkg sample_struct_124 none _ (by decide) (by decide)⟩

/-- C20 (`iopc_dump_struct`, name of the target of the default
constructor).  The declaration is written under the name followed by `Obj`
for a class and under the bare name otherwise, the `impl Default for` header
always has the bare name, and so has the marker `pub trait` written for a
class: the name of the header is the name of the declaration if and only if
the struct is not a class. -/
theorem iopc_dump_struct_default_target (buf : sb_t) (indent : String)
    (pkg : iopc_pkg_t) (st : iopc_struct_t) (st_name : Option String) :
    (iopc_dump_struct t_camelcase_to_c iopc_is_class buf indent pkg st
        st_name).1
      = buf ++ indent ++ "#[derive(Clone, Serialize, Deserialize)]\n"
          ++ indent ++ "pub struct "
          ++ struct_decl_name iopc_is_class st st_name ++ " \x7b"
          ++ sb_concat ((emitted_members st).map
              (decl_member_text t_camelcase_to_c iopc_is_class indent pkg))
          ++ (if st.fields.length ≠ 0 then "\n" else "") ++ indent
          ++ "\x7d\n"
          ++ indent ++ "impl Default for " ++ st_name.getD st.name
          ++ " \x7b\n"
          ++ indent ++ "    fn default() -> Self \x7b\n"
          ++ indent ++ "        Self \x7b"
          ++ sb_concat ((emitted_members st).map
              (defval_member_text t_camelcase_to_c indent))
          ++ "\n" ++ indent ++ "        \x7d\n" ++ indent ++ "    \x7d\n"
          ++ indent ++ "\x7d\n"
          ++ (if iopc_is_class st.type then
                indent ++ "pub trait " ++ st_name.getD st.name
                  ++ " \x7b\x7d\n"
                  ++ (match st.extends_ with
                      | [] => ""
                      | parent :: _ =>
                        indent ++ "impl " ++ parent.st_name ++ " for "
                          ++ st_name.getD st.name ++ " \x7b\x7d\n")
              else "") ∧
    (struct_decl_name iopc_is_class st st_name = st_name.getD st.name
      ↔ iopc_is_class st.type = false) ∧
    (iopc_is_class st.type = true →
      struct_decl_name iopc_is_class st st_name
        = st_name.getD st.name ++ "Obj") := by
  refine ⟨?_, ?_, ?_⟩
  · rw [iopc_dump_struct_eq]
    unfold struct_head struct_mid struct_tail struct_decl_name
      emitted_members
    cases h : iopc_is_class st.type <;>
      simp [-String.reduceAppend, String.append_assoc]
  · unfold struct_decl_name
    cases h : iopc_is_class st.type
    · simp
    · simp only [if_true, Bool.true_eq_false, iff_false]
      intro e
      have h1 := congrArg String.length e
      simp only [String.length_append] at h1
      have h2 : "Obj".length = 3 := by decide
      omega
  · intro h
    simp [struct_decl_name, h]

/-- C20 at a sample: the class `X` is declared as `XObj`, the default
constructor and the marker are written for `X`. -/
theorem iopc_dump_struct_default_target_witness :
    struct_decl_name sample_is_class sample_class none = "XObj" ∧
    (iopc_dump_struct sample_camelcase_to_c sample_is_class "" ""
        sample_pkg sample_class none).1
      = "#[derive(Clone, Serialize, Deserialize)]\npub struct XObj \x7b\n    pub a: i32,\n\x7d\nimpl Default for X \x7b\n    fn default() -> Self \x7b\n        Self \x7b\n            a: Default::default(),\n        \x7d\n    \x7d\n\x7d\npub trait X \x7b\x7d\nimpl P for X \x7b\x7d\n" := by
  have h := iopc_dump_struct_default_target sample_camelcase_to_c
    sample_is_class "" "" sample_pkg sample_class none
  exact ⟨(h.2.2 rfl).trans (by decide), h.1.trans (by decide)⟩

end externals

/-! ## When a name is escaped (C21) -/

theorem is_name_reserved_iff (field_name : String) :
    is_name_reserved field_name = true
      ↔ field_name = "type" ∨ field_name = "module" := by
  simp [is_name_reserved, reserved_names_g]

theorem name_escape_iff (field : iopc_field_t) :
    name_escape field = "r#"
      ↔ field.name = "type" ∨ field.name = "module" := by
  rw [← is_name_reserved_iff]
  unfold name_escape
  cases h : is_name_reserved field.name
  · simp only [Bool.false_eq_true, if_false, iff_false]
    decide
  · simp

section externals
variable (t_camelcase_to_c : String → String)
variable (iopc_is_class : iopc_struct_type_t → Bool)

/-- C21 (escape condition).  In `iopc_dump_field` and in
`iopc_dump_field_defval`, in the style of members and in the style of
variants alike, what is written before the converted name is `r#` if and only
if the name of the field, as the schema has it, is `type` or `module`, and
nothing for every other name; a field named `type` is written `r#Type` in
the style of variants. -/
theorem iopc_dump_field_escape_condition (buf : sb_t) (pkg : iopc_pkg_t)
    (field : iopc_field_t) (flags : Nat) :
    iopc_dump_field t_camelcase_to_c iopc_is_class buf pkg field flags
      = buf ++ name_escape field
          ++ (if flags &&& ENUM_STYLE ≠ 0 then
                t_field_name_to_camelcase field.name
              else t_camelcase_to_c field.name)
          ++ style_sep flags
          ++ iopc_dump_field_type iopc_is_class "" pkg field flags
          ++ style_close flags ∧
    iopc_dump_field_defval t_camelcase_to_c buf pkg field flags
      = buf ++ name_escape field
          ++ (if flags &&& ENUM_STYLE ≠ 0 then
                t_field_name_to_camelcase field.name
              else t_camelcase_to_c field.name)
          ++ style_sep flags ++ defval_literal field ++ style_close flags ∧
    (name_escape field = "r#"
      ↔ field.name = "type" ∨ field.name = "module") ∧
    (¬ (field.name = "type" ∨ field.name = "module") →
      name_escape field = "") ∧
    (field.name = "type" → flags &&& ENUM_STYLE ≠ 0 →
      name_escape field
          ++ (if flags &&& ENUM_STYLE ≠ 0 then
                t_field_name_to_camelcase field.name
              else t_camelcase_to_c field.name)
        = "r#Type") := by
  refine ⟨?_, ?_, name_escape_iff field, ?_, ?_⟩
  · rw [iopc_dump_field_split]
    simp only [field_ident, field_type_text, String.append_assoc]
  · rw [iopc_dump_field_defval_split]
    simp only [field_ident, String.append_assoc]
  · intro h
    have hr : is_name_reserved field.name = false := by
      cases e : is_name_reserved field.name
      · rfl
      · exact absurd ((is_name_reserved_iff field.name).1 e) h
    simp [name_escape, hr]
  · intro hn hf
    have he : name_escape field = "r#" := (name_escape_iff field).2 (Or.inl hn)
    rw [he, if_pos hf, hn]
    decide

/-- C21 at a sample: the field named `type` is written `r#Type` in the
style of variants, by `iopc_dump_field` and by `iopc_dump_field_defval`; the
field named `fn` is written without escape. -/
theorem iopc_dump_field_escape_condition_witness :
    iopc_dump_field sample_camelcase_to_c sample_is_class "" sample_pkg
        sample_field_type ENUM_STYLE = "r#Type(i32)" ∧
    iopc_dump_field_defval sample_camelcase_to_c "" sample_pkg
        sample_field_type ENUM_STYLE = "r#Type(Default::default())" ∧
    name_escape sample_field_fn = "" ∧
    iopc_dump_field sample_camelcase_to_c sample_is_class "" sample_pkg
        sample_field_fn 0 = "fn: i32" := by
  have h := iopc_dump_field_escape_condition sample_camelcase_to_c
    sample_is_class "" sample_pkg sample_field_type ENUM_STYLE
  have h2 := iopc_dump_field_escape_condition sample_camelcase_to_c
    sample_is_class "" sample_pkg sample_field_fn 0
  exact ⟨h.1.trans (by decide), h.2.1.trans (by decide),
    h2.2.2.2.1 (by decide), h2.1.trans (by decide)⟩

end externals

end IopcRust
